import Mathlib

set_option maxHeartbeats 1000000

/-!
Verification development for the variants-index builder.

The embedding translates, from `src/build.py`, `src/schemas/v0_0_2.py`,
`src/schemas/v0_0_3.py` and `main.py`:

* the wheel-filename regex `VARIANT_WHL_FILE_REGEX` and the variant-json
  regex `VARIANT_JSON_FILE_REGEX`, together with Python `re.match`
  backtracking semantics (lazy and greedy quantifiers, prefix matching);
* the `v0.0.2 -> v0.0.3` schema migration `WheelVariantJSON_V0_0_2.to_v0_0_3`;
* artifact collection (`fetch_links` outcomes, `collect_all_links`);
* variant-document download/normalization/caching (`download_json`,
  `load_variant_json`);
* the per-package reconciliation in `generate_project_index`;
* the top-level per-package loop of `main.py`.

Strings are embedded as `List Char`.
-/

/- ------------------------------------------------------------------ -/
/- Character classes of the regexes in `build.py`                      -/
/- ------------------------------------------------------------------ -/

/-- Python regex class `\s` (ASCII whitespace as matched on these inputs). -/
def isWS (c : Char) : Bool :=
  c = ' ' || c = '\t' || c = '\n' || c = '\r' || c = '\x0b' || c = '\x0c'

/-- The class `[^\s-]` used for the `name`, `ver`, `pyver`, `abi` and
`plat` groups of `VARIANT_WHL_FILE_REGEX`. -/
def isNameChar (c : Char) : Bool :=
  !isWS c && c != '-'

/-- The class `[^-]` used for the tail of the `build` group. -/
def isBuildChar (c : Char) : Bool :=
  c != '-'

/-- The class `[0-9a-z._]` of the `variant_label` group. -/
def isLabelChar (c : Char) : Bool :=
  ('0' ≤ c && c ≤ '9') || ('a' ≤ c && c ≤ 'z') || c = '.' || c = '_'

/-- The class `\S` of `VARIANT_JSON_FILE_REGEX`. -/
def isNonWS (c : Char) : Bool :=
  !isWS c

/-- The class `.` (any character but a newline) of `VARIANT_JSON_FILE_REGEX`. -/
def isDotChar (c : Char) : Bool :=
  c != '\n'

/- ------------------------------------------------------------------ -/
/- Backtracking combinators (Python `re` semantics)                    -/
/- ------------------------------------------------------------------ -/

/-- Backtracking continuation of a lazy quantifier: having already consumed
the reversed characters `acc`, first try the continuation `k` (lazy
quantifiers prefer the shortest match), then consume one more character of
the class `p` and retry.  `k` receives the consumed characters (in order)
and the remaining input. -/
def lazyMore (p : Char → Bool) (k : List Char → List Char → Option α) :
    List Char → List Char → Option α
  | acc, [] => k acc.reverse []
  | acc, c :: rest =>
      k acc.reverse (c :: rest) <|>
        (if p c then lazyMore p k (c :: acc) rest else none)

/-- A lazy `X*?` quantifier over the class `p`. -/
def lazyStar (p : Char → Bool) (k : List Char → List Char → Option α)
    (s : List Char) : Option α :=
  lazyMore p k [] s

/-- A lazy `X+?` quantifier over the class `p`. -/
def lazyPlus (p : Char → Bool) (k : List Char → List Char → Option α) :
    List Char → Option α
  | [] => none
  | c :: rest => if p c then lazyMore p k [c] rest else none

/-- A literal single character of the pattern. -/
def expectC (c : Char) (k : List Char → Option α) : List Char → Option α
  | [] => none
  | d :: rest => if d = c then k rest else none

/-- A literal sequence of characters of the pattern. -/
def expectS (lit : List Char) (k : List Char → Option α) (s : List Char) :
    Option α :=
  if lit.isPrefixOf s then k (s.drop lit.length) else none

/-- Backtracking of a greedy quantifier: try consuming `n` characters first,
then `n - 1`, and so on down to `0`. -/
def greedyTry (k : List Char → List Char → Option α) (s : List Char) :
    Nat → Option α
  | 0 => k [] s
  | n + 1 => k (s.take (n + 1)) (s.drop (n + 1)) <|> greedyTry k s n

/-- A greedy `X*` quantifier over the class `p`. -/
def greedyStar (p : Char → Bool) (k : List Char → List Char → Option α)
    (s : List Char) : Option α :=
  greedyTry k s (s.takeWhile p).length

/-- Backtracking of a greedy counted quantifier with lower bound one: try
consuming `n` characters first, down to `1`. -/
def labelTry (k : List Char → List Char → Option α) (s : List Char) :
    Nat → Option α
  | 0 => none
  | n + 1 => k (s.take (n + 1)) (s.drop (n + 1)) <|> labelTry k s n

/- ------------------------------------------------------------------ -/
/- `VARIANT_WHL_FILE_REGEX`, staged                                    -/
/- ------------------------------------------------------------------ -/

/-- The tuple of capture groups of `VARIANT_WHL_FILE_REGEX`. -/
structure WheelTuple where
  wname : List Char
  wver : List Char
  wbuild : Option (List Char)
  wpy : List Char
  wabi : List Char
  wplat : List Char
  wlabel : Option (List Char)
deriving DecidableEq, Repr

/-- The literal `\.whl` tail of the pattern. -/
def whlSuffix : List Char := ".whl".data

/-- Final stage: the literal `\.whl`; `re.match` allows arbitrary trailing
input after it (the pattern has no end anchor). -/
def stageSuffix (t : WheelTuple) : List Char → Option WheelTuple :=
  expectS whlSuffix (fun _ => some t)

/-- The optional greedy group `(?:-(?P<variant_label>[0-9a-z._]{1,16}))?`:
the group is tried first (longest label first, the counted quantifier is
greedy), then skipped. -/
def stageLabel (nm vr : List Char) (bd : Option (List Char))
    (py ab pl : List Char) (s : List Char) : Option WheelTuple :=
  expectC '-'
      (fun s' =>
        labelTry
          (fun lb rest => stageSuffix ⟨nm, vr, bd, py, ab, pl, some lb⟩ rest)
          s' (min (s'.takeWhile isLabelChar).length 16)) s <|>
    stageSuffix ⟨nm, vr, bd, py, ab, pl, none⟩ s

/-- `-(?P<plat>[^\s-]+?)`. -/
def stagePlat (nm vr : List Char) (bd : Option (List Char)) (py ab : List Char) :
    List Char → Option WheelTuple :=
  expectC '-' (lazyPlus isNameChar (fun pl rest => stageLabel nm vr bd py ab pl rest))

/-- `-(?P<abi>[^\s-]+?)`. -/
def stageAbi (nm vr : List Char) (bd : Option (List Char)) (py : List Char) :
    List Char → Option WheelTuple :=
  expectC '-' (lazyPlus isNameChar (fun ab rest => stagePlat nm vr bd py ab rest))

/-- `-(?P<pyver>[^\s-]+?)`. -/
def stagePy (nm vr : List Char) (bd : Option (List Char)) :
    List Char → Option WheelTuple :=
  expectC '-' (lazyPlus isNameChar (fun py rest => stageAbi nm vr bd py rest))

/-- The optional greedy group `(?:-(?P<build>\d[^-]*?))?`: tried first,
then skipped. -/
def stageBuild (nm vr : List Char) (s : List Char) : Option WheelTuple :=
  expectC '-'
      (fun s' =>
        match s' with
        | [] => none
        | c :: rest =>
            if c.isDigit then
              lazyMore isBuildChar (fun bd rest' => stagePy nm vr (some bd) rest')
                [c] rest
            else none) s <|>
    stagePy nm vr none s

/-- `-(?P<ver>[^\s-]*?)` followed by the optional build group. -/
def stageVer (nm : List Char) : List Char → Option WheelTuple :=
  expectC '-' (lazyStar isNameChar (fun vr rest => stageBuild nm vr rest))

/-- `re.match` of `VARIANT_WHL_FILE_REGEX` against `s` (a prefix match
anchored at the start only), returning the capture groups. -/
def wheelMatch : List Char → Option WheelTuple :=
  lazyPlus isNameChar (fun nm rest => stageVer nm rest)

/- ------------------------------------------------------------------ -/
/- Reassembly and validity of a capture tuple                          -/
/- ------------------------------------------------------------------ -/

/-- The optional `-<build>` component of an assembled wheel filename. -/
def buildPart : Option (List Char) → List Char
  | some b => '-' :: b
  | none => []

/-- The optional `-<variantLabel>` component of an assembled wheel filename. -/
def labelPart : Option (List Char) → List Char
  | some l => '-' :: l
  | none => []

/-- Reassemble a capture tuple into the wheel filename
`<name>-<version>[-<build>]-<pyTag>-<abiTag>-<platTag>[-<variantLabel>].whl`. -/
def assemble (t : WheelTuple) : List Char :=
  t.wname ++ '-' ::
    (t.wver ++ buildPart t.wbuild ++ '-' ::
      (t.wpy ++ '-' :: (t.wabi ++ '-' :: (t.wplat ++ labelPart t.wlabel ++ whlSuffix))))

/-- A `name`/`pyver`/`abi`/`plat` component: a non-empty run of `[^\s-]`. -/
def tagOK (l : List Char) : Bool :=
  !l.isEmpty && l.all isNameChar

/-- An optional `build` component: a digit followed by a run of `[^-]`. -/
def buildOK : Option (List Char) → Bool
  | none => true
  | some [] => false
  | some (c :: rest) => c.isDigit && rest.all isBuildChar

/-- An optional `variant_label` component: 1-16 characters of `[0-9a-z._]`. -/
def labelOK : Option (List Char) → Bool
  | none => true
  | some l => decide (1 ≤ l.length) && decide (l.length ≤ 16) && l.all isLabelChar

/-- The component constraints of the wheel grammar: `name` is a non-empty
run of `[^\s-]`, `version` a possibly-empty run of `[^\s-]`, `build` starts
with a digit followed by `[^-]*`, the three tags are non-empty runs of
`[^\s-]`, and the variant label is 1-16 characters of `[0-9a-z._]`. -/
def validTupleB (t : WheelTuple) : Bool :=
  tagOK t.wname && t.wver.all isNameChar && buildOK t.wbuild &&
    tagOK t.wpy && tagOK t.wabi && tagOK t.wplat && labelOK t.wlabel

/-- The wheel grammar of the specification, stated on whole strings: a
filename matches the grammar exactly when it is the reassembly of a valid
capture tuple.  (Definition written from the specification's grammar, for
comparison with the regex of the source.) -/
def specWheelGrammar (s : List Char) : Prop :=
  ∃ t : WheelTuple, validTupleB t = true ∧ assemble t = s

/-- `re.match` of `VARIANT_JSON_FILE_REGEX` (`\S*-(.*)-variants\.json`)
against `s`, returning the capture group (the extracted version): both
stars are greedy and the match is anchored at the start only. -/
def vjsonMatch (s : List Char) : Option (List Char) :=
  greedyStar isNonWS
    (fun _pre rest =>
      expectC '-'
        (greedyStar isDotChar
          (fun ver rest2 => expectS "-variants.json".data (fun _ => some ver) rest2))
        rest)
    s

/- ------------------------------------------------------------------ -/
/- Soundness and completeness of the combinators                       -/
/- ------------------------------------------------------------------ -/

theorem orElse_eq_some_iff (a b : Option α) (r : α) :
    (a <|> b) = some r ↔ a = some r ∨ (a = none ∧ b = some r) := by
  cases a <;> simp [Option.orElse]

theorem orElse_isSome_iff (a b : Option α) :
    (a <|> b).isSome = true ↔ a.isSome = true ∨ b.isSome = true := by
  cases a <;> simp [Option.orElse]

theorem lazyMore_sound (p : Char → Bool) (k : List Char → List Char → Option α) :
    ∀ (s acc : List Char) (r : α), lazyMore p k acc s = some r →
      ∃ xs rest, s = xs ++ rest ∧ xs.all p = true ∧
        k (acc.reverse ++ xs) rest = some r := by
  intro s
  induction s with
  | nil =>
    intro acc r h
    rw [lazyMore] at h
    exact ⟨[], [], rfl, rfl, by simpa using h⟩
  | cons c rest ih =>
    intro acc r h
    rw [lazyMore] at h
    rcases (orElse_eq_some_iff _ _ _).mp h with h1 | ⟨-, h2⟩
    · exact ⟨[], c :: rest, rfl, rfl, by simpa using h1⟩
    · by_cases hp : p c
      · simp only [hp, if_pos] at h2
        obtain ⟨xs, rest', heq, hall, hk⟩ := ih (c :: acc) r h2
        refine ⟨c :: xs, rest', by simp [heq], by simp [hp, hall], ?_⟩
        simpa [List.append_assoc] using hk
      · simp [hp] at h2

theorem lazyMore_complete (p : Char → Bool) (k : List Char → List Char → Option α) :
    ∀ (xs rest acc : List Char), xs.all p = true →
      (k (acc.reverse ++ xs) rest).isSome = true →
      (lazyMore p k acc (xs ++ rest)).isSome = true := by
  intro xs
  induction xs with
  | nil =>
    intro rest acc _ hk
    simp only [List.nil_append]
    cases rest with
    | nil => rw [lazyMore]; simpa using hk
    | cons c r =>
      rw [lazyMore]
      exact (orElse_isSome_iff _ _).mpr (Or.inl (by simpa using hk))
  | cons c xs ih =>
    intro rest acc hall hk
    simp only [List.all_cons, Bool.and_eq_true] at hall
    rw [List.cons_append, lazyMore]
    refine (orElse_isSome_iff _ _).mpr (Or.inr ?_)
    rw [if_pos hall.1]
    refine ih rest (c :: acc) hall.2 ?_
    simpa [List.append_assoc] using hk

theorem lazyStar_sound (p : Char → Bool) (k : List Char → List Char → Option α)
    (s : List Char) (r : α) (h : lazyStar p k s = some r) :
    ∃ xs rest, s = xs ++ rest ∧ xs.all p = true ∧ k xs rest = some r := by
  obtain ⟨xs, rest, heq, hall, hk⟩ := lazyMore_sound p k s [] r h
  exact ⟨xs, rest, heq, hall, by simpa using hk⟩

theorem lazyStar_complete (p : Char → Bool) (k : List Char → List Char → Option α)
    (xs rest : List Char) (hall : xs.all p = true)
    (hk : (k xs rest).isSome = true) :
    (lazyStar p k (xs ++ rest)).isSome = true := by
  refine lazyMore_complete p k xs rest [] hall (by simpa using hk)

theorem lazyPlus_sound (p : Char → Bool) (k : List Char → List Char → Option α)
    (s : List Char) (r : α) (h : lazyPlus p k s = some r) :
    ∃ xs rest, s = xs ++ rest ∧ xs ≠ [] ∧ xs.all p = true ∧ k xs rest = some r := by
  cases s with
  | nil => simp [lazyPlus] at h
  | cons c s' =>
    rw [lazyPlus] at h
    by_cases hp : p c
    · rw [if_pos hp] at h
      obtain ⟨xs, rest, heq, hall, hk⟩ := lazyMore_sound p k s' [c] r h
      exact ⟨c :: xs, rest, by simp [heq], by simp, by simp [hp, hall],
        by simpa using hk⟩
    · simp [hp] at h

theorem lazyPlus_complete (p : Char → Bool) (k : List Char → List Char → Option α)
    (xs rest : List Char) (hne : xs ≠ []) (hall : xs.all p = true)
    (hk : (k xs rest).isSome = true) :
    (lazyPlus p k (xs ++ rest)).isSome = true := by
  cases xs with
  | nil => exact absurd rfl hne
  | cons c xs' =>
    simp only [List.all_cons, Bool.and_eq_true] at hall
    rw [List.cons_append, lazyPlus, if_pos hall.1]
    exact lazyMore_complete p k xs' rest [c] hall.2 (by simpa using hk)

theorem expectC_sound (c : Char) (k : List Char → Option α) (s : List Char)
    (r : α) (h : expectC c k s = some r) :
    ∃ rest, s = c :: rest ∧ k rest = some r := by
  cases s with
  | nil => simp [expectC] at h
  | cons d rest =>
    rw [expectC] at h
    by_cases hd : d = c
    · exact ⟨rest, by rw [hd], by simpa [hd] using h⟩
    · simp [hd] at h

theorem expectC_complete (c : Char) (k : List Char → Option α) (rest : List Char)
    (hk : (k rest).isSome = true) :
    (expectC c k (c :: rest)).isSome = true := by
  rw [expectC]
  simpa using hk

theorem expectS_sound (lit : List Char) (k : List Char → Option α) (s : List Char)
    (r : α) (h : expectS lit k s = some r) :
    ∃ rest, s = lit ++ rest ∧ k rest = some r := by
  rw [expectS] at h
  by_cases hpre : lit.isPrefixOf s
  · obtain ⟨rest, hrest⟩ := List.isPrefixOf_iff_prefix.mp hpre
    refine ⟨rest, hrest.symm, ?_⟩
    rw [if_pos hpre] at h
    rw [← h, ← hrest, List.drop_left]
  · simp [hpre] at h

theorem expectS_complete (lit : List Char) (k : List Char → Option α)
    (rest : List Char) (hk : (k rest).isSome = true) :
    (expectS lit k (lit ++ rest)).isSome = true := by
  rw [expectS, if_pos (List.isPrefixOf_iff_prefix.mpr (List.prefix_append lit rest)),
    List.drop_left]
  exact hk

theorem labelTry_sound (k : List Char → List Char → Option α) (s : List Char) :
    ∀ (n : Nat) (r : α), labelTry k s n = some r →
      ∃ m, 1 ≤ m ∧ m ≤ n ∧ k (s.take m) (s.drop m) = some r := by
  intro n
  induction n with
  | zero => intro r h; simp [labelTry] at h
  | succ n ih =>
    intro r h
    rw [labelTry] at h
    rcases (orElse_eq_some_iff _ _ _).mp h with h1 | ⟨-, h2⟩
    · exact ⟨n + 1, Nat.succ_le_succ (Nat.zero_le n), Nat.le_refl _, h1⟩
    · obtain ⟨m, h1m, hmn, hk⟩ := ih r h2
      exact ⟨m, h1m, Nat.le_succ_of_le hmn, hk⟩

theorem labelTry_complete (k : List Char → List Char → Option α) (s : List Char) :
    ∀ (n m : Nat), 1 ≤ m → m ≤ n → (k (s.take m) (s.drop m)).isSome = true →
      (labelTry k s n).isSome = true := by
  intro n
  induction n with
  | zero => intro m h1m hmn _; omega
  | succ n ih =>
    intro m h1m hmn hk
    rw [labelTry]
    refine (orElse_isSome_iff _ _).mpr ?_
    by_cases hm : m = n + 1
    · subst hm; exact Or.inl hk
    · exact Or.inr (ih m h1m (by omega) hk)

theorem greedyTry_sound (k : List Char → List Char → Option α) (s : List Char) :
    ∀ (n : Nat) (r : α), greedyTry k s n = some r →
      ∃ m, m ≤ n ∧ k (s.take m) (s.drop m) = some r := by
  intro n
  induction n with
  | zero => intro r h; rw [greedyTry] at h; exact ⟨0, Nat.le_refl _, by simpa using h⟩
  | succ n ih =>
    intro r h
    rw [greedyTry] at h
    rcases (orElse_eq_some_iff _ _ _).mp h with h1 | ⟨-, h2⟩
    · exact ⟨n + 1, Nat.le_refl _, h1⟩
    · obtain ⟨m, hmn, hk⟩ := ih r h2
      exact ⟨m, Nat.le_succ_of_le hmn, hk⟩

theorem greedyTry_complete (k : List Char → List Char → Option α) (s : List Char) :
    ∀ (n m : Nat), m ≤ n → (k (s.take m) (s.drop m)).isSome = true →
      (greedyTry k s n).isSome = true := by
  intro n
  induction n with
  | zero =>
    intro m hmn hk
    rw [greedyTry]
    have : m = 0 := Nat.le_zero.mp hmn
    subst this
    simpa using hk
  | succ n ih =>
    intro m hmn hk
    rw [greedyTry]
    refine (orElse_isSome_iff _ _).mpr ?_
    by_cases hm : m = n + 1
    · subst hm; exact Or.inl hk
    · exact Or.inr (ih m (by omega) hk)

theorem take_eq_take_takeWhile (p : Char → Bool) :
    ∀ (s : List Char) (m : Nat), m ≤ (s.takeWhile p).length →
      s.take m = (s.takeWhile p).take m := by
  intro s
  induction s with
  | nil => intro m _; simp
  | cons c s' ih =>
    intro m hm
    by_cases hp : p c
    · cases m with
      | zero => simp
      | succ m' =>
        rw [List.takeWhile_cons_of_pos hp] at hm ⊢
        simp only [List.take_succ_cons]
        rw [ih m' (by simpa using hm)]
    · rw [List.takeWhile_cons_of_neg hp] at hm
      simp at hm
      subst hm
      simp

theorem all_take_of_le_takeWhile (p : Char → Bool) (s : List Char) (m : Nat)
    (hm : m ≤ (s.takeWhile p).length) : (s.take m).all p = true := by
  rw [take_eq_take_takeWhile p s m hm, List.all_eq_true]
  intro c hc
  exact List.mem_takeWhile_imp (List.take_subset _ _ hc)

theorem length_le_takeWhile_append (p : Char → Bool) (xs rest : List Char)
    (hall : xs.all p = true) :
    xs.length ≤ ((xs ++ rest).takeWhile p).length := by
  induction xs with
  | nil => simp
  | cons c xs ih =>
    simp only [List.all_cons, Bool.and_eq_true] at hall
    rw [List.cons_append, List.takeWhile_cons_of_pos hall.1]
    simpa using ih hall.2

theorem tagOK_iff (l : List Char) :
    tagOK l = true ↔ l ≠ [] ∧ l.all isNameChar = true := by
  simp [tagOK, List.isEmpty_iff]

/- ------------------------------------------------------------------ -/
/- Stage lemmas                                                        -/
/- ------------------------------------------------------------------ -/

theorem stageSuffix_sound (t : WheelTuple) (s : List Char) (r : WheelTuple)
    (h : stageSuffix t s = some r) :
    r = t ∧ ∃ rest, s = whlSuffix ++ rest := by
  obtain ⟨rest, hrest, hk⟩ := expectS_sound _ _ _ _ h
  exact ⟨by simpa using hk.symm, rest, hrest⟩

theorem stageSuffix_complete (t : WheelTuple) (rest : List Char) :
    (stageSuffix t (whlSuffix ++ rest)).isSome = true :=
  expectS_complete _ _ rest rfl

theorem stageLabel_sound (nm vr : List Char) (bd : Option (List Char))
    (py ab pl : List Char) (s : List Char) (r : WheelTuple)
    (h : stageLabel nm vr bd py ab pl s = some r) :
    ∃ lab rest, labelOK lab = true ∧ s = labelPart lab ++ (whlSuffix ++ rest) ∧
      r = ⟨nm, vr, bd, py, ab, pl, lab⟩ := by
  rw [stageLabel] at h
  rcases (orElse_eq_some_iff _ _ _).mp h with h1 | ⟨-, h2⟩
  · obtain ⟨s₁, hs₁, h1'⟩ := expectC_sound _ _ _ _ h1
    obtain ⟨m, h1m, hmn, hk⟩ := labelTry_sound _ _ _ _ h1'
    obtain ⟨hr, rest, hrest⟩ := stageSuffix_sound _ _ _ hk
    have hmA : m ≤ (s₁.takeWhile isLabelChar).length :=
      le_trans hmn (Nat.min_le_left _ _)
    have hm16 : m ≤ 16 := le_trans hmn (Nat.min_le_right _ _)
    have hlen : (s₁.take m).length = m := by
      rw [List.length_take]
      have : m ≤ s₁.length :=
        le_trans hmA (List.takeWhile_prefix _).length_le
      omega
    refine ⟨some (s₁.take m), rest, ?_, ?_, hr⟩
    · simp only [labelOK, Bool.and_eq_true, decide_eq_true_eq]
      exact ⟨⟨by omega, by omega⟩, all_take_of_le_takeWhile _ _ _ hmA⟩
    · rw [hs₁, labelPart, List.cons_append]
      rw [← hrest, List.take_append_drop]
  · obtain ⟨hr, rest, hrest⟩ := stageSuffix_sound _ _ _ h2
    exact ⟨none, rest, rfl, by simpa [labelPart] using hrest, hr⟩

theorem stageLabel_complete (nm vr : List Char) (bd : Option (List Char))
    (py ab pl : List Char) (lab : Option (List Char)) (rest : List Char)
    (hlab : labelOK lab = true) :
    (stageLabel nm vr bd py ab pl (labelPart lab ++ (whlSuffix ++ rest))).isSome
      = true := by
  rw [stageLabel]
  cases lab with
  | none =>
    refine (orElse_isSome_iff _ _).mpr (Or.inr ?_)
    simpa [labelPart] using stageSuffix_complete ⟨nm, vr, bd, py, ab, pl, none⟩ rest
  | some l =>
    refine (orElse_isSome_iff _ _).mpr (Or.inl ?_)
    simp only [labelOK, Bool.and_eq_true, decide_eq_true_eq] at hlab
    obtain ⟨⟨h1, h16⟩, hall⟩ := hlab
    rw [labelPart, List.cons_append]
    refine expectC_complete _ _ _ ?_
    refine labelTry_complete _ _ _ l.length h1 ?_ ?_
    · exact le_min (length_le_takeWhile_append _ _ _ hall) h16
    · rw [List.take_left, List.drop_left]
      exact stageSuffix_complete _ _

theorem tagStage_sound (k : List Char → List Char → Option WheelTuple)
    (s : List Char) (r : WheelTuple)
    (h : expectC '-' (lazyPlus isNameChar k) s = some r) :
    ∃ xs rest, tagOK xs = true ∧ s = '-' :: (xs ++ rest) ∧ k xs rest = some r := by
  obtain ⟨s₁, hs₁, h1⟩ := expectC_sound _ _ _ _ h
  obtain ⟨xs, rest, heq, hne, hall, hk⟩ := lazyPlus_sound _ _ _ _ h1
  exact ⟨xs, rest, (tagOK_iff xs).mpr ⟨hne, hall⟩, by rw [hs₁, heq], hk⟩

theorem tagStage_complete (k : List Char → List Char → Option WheelTuple)
    (xs rest : List Char) (hxs : tagOK xs = true)
    (hk : (k xs rest).isSome = true) :
    (expectC '-' (lazyPlus isNameChar k) ('-' :: (xs ++ rest))).isSome = true := by
  obtain ⟨hne, hall⟩ := (tagOK_iff xs).mp hxs
  exact expectC_complete _ _ _ (lazyPlus_complete _ _ _ _ hne hall hk)

theorem stageBuild_sound (nm vr : List Char) (s : List Char) (r : WheelTuple)
    (h : stageBuild nm vr s = some r) :
    ∃ bd s', buildOK bd = true ∧ s = buildPart bd ++ s' ∧
      stagePy nm vr bd s' = some r := by
  rw [stageBuild] at h
  rcases (orElse_eq_some_iff _ _ _).mp h with h1 | ⟨-, h2⟩
  · obtain ⟨s₁, hs₁, h1'⟩ := expectC_sound _ _ _ _ h1
    cases s₁ with
    | nil => simp at h1'
    | cons c rest =>
      by_cases hd : c.isDigit
      · replace h1' : lazyMore isBuildChar
            (fun bd rest' => stagePy nm vr (some bd) rest') [c] rest = some r := by
          simpa [hd] using h1'
        obtain ⟨xs, rest', heq, hall, hk⟩ := lazyMore_sound _ _ _ _ _ h1'
        refine ⟨some (c :: xs), rest', ?_, ?_, by simpa using hk⟩
        · simp [buildOK, hd, hall]
        · rw [hs₁, heq, buildPart]
          simp
      · simp [hd] at h1'
  · exact ⟨none, s, rfl, by simp [buildPart], h2⟩

theorem stageBuild_complete (nm vr : List Char) (bd : Option (List Char))
    (s' : List Char) (hbd : buildOK bd = true)
    (hk : (stagePy nm vr bd s').isSome = true) :
    (stageBuild nm vr (buildPart bd ++ s')).isSome = true := by
  rw [stageBuild]
  cases bd with
  | none =>
    refine (orElse_isSome_iff _ _).mpr (Or.inr ?_)
    simpa [buildPart] using hk
  | some b =>
    cases b with
    | nil => simp [buildOK] at hbd
    | cons c rest =>
      simp only [buildOK, Bool.and_eq_true] at hbd
      refine (orElse_isSome_iff _ _).mpr (Or.inl ?_)
      rw [buildPart, List.cons_append, List.cons_append]
      refine expectC_complete _ _ _ ?_
      simp only [hbd.1, if_pos]
      exact lazyMore_complete _ _ rest s' [c] hbd.2 (by simpa using hk)

theorem stageVer_sound (nm : List Char) (s : List Char) (r : WheelTuple)
    (h : stageVer nm s = some r) :
    ∃ vr s', vr.all isNameChar = true ∧ s = '-' :: (vr ++ s') ∧
      stageBuild nm vr s' = some r := by
  rw [stageVer] at h
  obtain ⟨s₁, hs₁, h1⟩ := expectC_sound _ _ _ _ h
  obtain ⟨vr, s', heq, hall, hk⟩ := lazyStar_sound _ _ _ _ h1
  exact ⟨vr, s', hall, by rw [hs₁, heq], hk⟩

theorem stageVer_complete (nm vr : List Char) (s' : List Char)
    (hall : vr.all isNameChar = true)
    (hk : (stageBuild nm vr s').isSome = true) :
    (stageVer nm ('-' :: (vr ++ s'))).isSome = true := by
  rw [stageVer]
  exact expectC_complete _ _ _ (lazyStar_complete _ _ _ _ hall hk)

/- ------------------------------------------------------------------ -/
/- Top-level parser correctness                                        -/
/- ------------------------------------------------------------------ -/

/-- Soundness of `re.match` on `VARIANT_WHL_FILE_REGEX`: a successful match
yields a valid capture tuple whose reassembly is the consumed prefix of the
input. -/
theorem wheelMatch_sound (s : List Char) (t : WheelTuple)
    (h : wheelMatch s = some t) :
    validTupleB t = true ∧ ∃ rest, s = assemble t ++ rest := by
  rw [wheelMatch] at h
  obtain ⟨nm, s₁, hs, hnm_ne, hnm_all, h1⟩ := lazyPlus_sound _ _ _ _ h
  obtain ⟨vr, s₂, hvr, hs₁, h2⟩ := stageVer_sound _ _ _ h1
  obtain ⟨bd, s₃, hbd, hs₂, h3⟩ := stageBuild_sound _ _ _ _ h2
  rw [stagePy] at h3
  obtain ⟨py, s₄, hpy, hs₃, h4⟩ := tagStage_sound _ _ _ h3
  replace h4 : stageAbi nm vr bd py s₄ = some t := h4
  rw [stageAbi] at h4
  obtain ⟨ab, s₅, hab, hs₄, h5⟩ := tagStage_sound _ _ _ h4
  replace h5 : stagePlat nm vr bd py ab s₅ = some t := h5
  rw [stagePlat] at h5
  obtain ⟨pl, s₆, hpl, hs₅, h6⟩ := tagStage_sound _ _ _ h5
  replace h6 : stageLabel nm vr bd py ab pl s₆ = some t := h6
  obtain ⟨lab, rest, hlab, hs₆, hr⟩ := stageLabel_sound _ _ _ _ _ _ _ _ h6
  subst hr
  constructor
  · simp only [validTupleB, Bool.and_eq_true]
    exact ⟨⟨⟨⟨⟨⟨(tagOK_iff nm).mpr ⟨hnm_ne, hnm_all⟩, hvr⟩, hbd⟩, hpy⟩, hab⟩, hpl⟩,
      hlab⟩
  · refine ⟨rest, ?_⟩
    subst hs hs₁ hs₂ hs₃ hs₄ hs₅ hs₆
    simp [assemble, List.append_assoc]

/-- Completeness of `re.match` on `VARIANT_WHL_FILE_REGEX`: the reassembly
of any valid capture tuple, followed by arbitrary trailing input, matches. -/
theorem wheelMatch_complete (t : WheelTuple) (tail : List Char)
    (hv : validTupleB t = true) :
    (wheelMatch (assemble t ++ tail)).isSome = true := by
  simp only [validTupleB, Bool.and_eq_true] at hv
  obtain ⟨⟨⟨⟨⟨⟨hnm, hvr⟩, hbd⟩, hpy⟩, hab⟩, hpl⟩, hlab⟩ := hv
  obtain ⟨hnm_ne, hnm_all⟩ := (tagOK_iff _).mp hnm
  have hshape : assemble t ++ tail =
      t.wname ++ ('-' :: (t.wver ++ (buildPart t.wbuild ++ ('-' :: (t.wpy ++
        ('-' :: (t.wabi ++ ('-' :: (t.wplat ++
          (labelPart t.wlabel ++ (whlSuffix ++ tail))))))))))) := by
    simp [assemble, List.append_assoc]
  rw [wheelMatch, hshape]
  refine lazyPlus_complete _ _ _ _ hnm_ne hnm_all ?_
  refine stageVer_complete _ _ _ hvr ?_
  refine stageBuild_complete _ _ _ _ hbd ?_
  rw [stagePy]
  refine tagStage_complete _ _ _ hpy ?_
  show (stageAbi _ _ _ _ _).isSome = true
  rw [stageAbi]
  refine tagStage_complete _ _ _ hab ?_
  show (stagePlat _ _ _ _ _ _).isSome = true
  rw [stagePlat]
  refine tagStage_complete _ _ _ hpl ?_
  show (stageLabel _ _ _ _ _ _ _).isSome = true
  exact stageLabel_complete _ _ _ _ _ _ _ _ hlab

/-- The reassembled filename is some string followed by `.whl`. -/
theorem assemble_ends (t : WheelTuple) : ∃ u, assemble t = u ++ whlSuffix := by
  refine ⟨t.wname ++ '-' :: (t.wver ++ buildPart t.wbuild ++ '-' :: (t.wpy ++
    '-' :: (t.wabi ++ '-' :: (t.wplat ++ labelPart t.wlabel)))), ?_⟩
  simp [assemble, List.append_assoc]

/-- The reassembled filename always ends in the letter of `.whl`. -/
theorem assemble_getLast (t : WheelTuple) :
    (assemble t).getLast? = some 'l' := by
  obtain ⟨u, hu⟩ := assemble_ends t
  rw [hu, List.getLast?_append]
  rfl

/- ------------------------------------------------------------------ -/
/- C1                                                                  -/
/- ------------------------------------------------------------------ -/

/-- **C1** (counterexample to the claim as stated).  The claim says that
every string not matching the wheel grammar fails to parse; but the regex
is applied with `re.match` and has no end anchor, so
`a-1-py3-none-any.whlfoo` — which does not match the grammar, since the
grammar ends at `.whl` — parses successfully (and the accessors do not
raise). -/
theorem C1_counterexample :
    (wheelMatch "a-1-py3-none-any.whlfoo".data).isSome = true ∧
    ¬ specWheelGrammar "a-1-py3-none-any.whlfoo".data := by
  constructor
  · decide
  · rintro ⟨t, -, hassemble⟩
    have h1 := assemble_getLast t
    rw [hassemble] at h1
    exact absurd h1 (by decide)

/-- **C1** (amended).  Parse→reassemble round trip, corrected for the
missing end anchor: every successful match of the wheel filename regex
yields a valid component tuple whose reassembly is a prefix of the input,
and the match succeeds exactly on the strings that have such a prefix (in
particular on every string of the grammar, but also on any grammar string
followed by trailing characters, where the recovered tuple may describe a
proper prefix rather than the whole input). -/
theorem C1_wheel_parse_characterization : ∀ s : List Char,
    (∀ t, wheelMatch s = some t → validTupleB t = true ∧ assemble t <+: s) ∧
    ((∃ t, validTupleB t = true ∧ assemble t <+: s) →
      (wheelMatch s).isSome = true) := by
  intro s
  constructor
  · intro t h
    obtain ⟨hv, rest, hrest⟩ := wheelMatch_sound s t h
    exact ⟨hv, ⟨rest, hrest.symm⟩⟩
  · rintro ⟨t, hv, rest, hs⟩
    rw [← hs]
    exact wheelMatch_complete t rest hv

/-- Witness for `C1_wheel_parse_characterization` at the concrete filename
`pkg-1.0-py3-none-any.whl`. -/
theorem C1_wheel_parse_characterization_witness :
    (validTupleB ⟨"pkg".data, "1.0".data, none, "py3".data, "none".data,
        "any".data, none⟩ = true ∧
      assemble ⟨"pkg".data, "1.0".data, none, "py3".data, "none".data,
        "any".data, none⟩ <+: "pkg-1.0-py3-none-any.whl".data) ∧
    (wheelMatch "pkg-1.0-py3-none-any.whl".data).isSome = true :=
  ⟨(C1_wheel_parse_characterization "pkg-1.0-py3-none-any.whl".data).1
      ⟨"pkg".data, "1.0".data, none, "py3".data, "none".data, "any".data, none⟩
      (by decide),
   (C1_wheel_parse_characterization "pkg-1.0-py3-none-any.whl".data).2
      ⟨⟨"pkg".data, "1.0".data, none, "py3".data, "none".data, "any".data, none⟩,
        by decide, by decide⟩⟩

/- ------------------------------------------------------------------ -/
/- Schemas v0.0.2 / v0.0.3 (`src/schemas/v0_0_2.py`, `v0_0_3.py`)      -/
/- ------------------------------------------------------------------ -/

/-- Association map embedding a JSON object (insertion order preserved,
like a Python dict). -/
abbrev SMap (β : Type) := List (String × β)

/-- `DefaultPriorities` (the class is identical in v0.0.2 and v0.0.3):
`namespace` (spelled `nspace` here, `namespace` being a Lean keyword),
`feature` and `property`; the `min_length=1` constraint on `namespace` is
`validV2` below. -/
structure DefaultPriorities where
  nspace : List String
  feature : SMap (List String)
  property : SMap (SMap (List String))
deriving DecidableEq, Repr

/-- v0.0.2 `Provider`. -/
structure ProviderV2 where
  plugin_api : Option String
  enable_if : Option String
  optional : Option Bool
  plugin_use : Option String
  requires : Option (List String)
deriving DecidableEq, Repr

/-- v0.0.3 `Provider` (`plugin-use` replaced by `install-time`). -/
structure ProviderV3 where
  plugin_api : Option String
  enable_if : Option String
  install_time : Option Bool
  optional : Option Bool
  requires : Option (List String)
deriving DecidableEq, Repr

/-- `Variants`: variant label -> namespace -> feature -> list of values. -/
abbrev Variants := SMap (SMap (SMap (List String)))

/-- The v0.0.2 root model (`$schema` is a fixed literal and is omitted). -/
structure WheelVariantJSON_V0_0_2 where
  default_priorities : DefaultPriorities
  providers : SMap ProviderV2
  variants : Variants
deriving DecidableEq, Repr

/-- The v0.0.3 root model (`$schema` is a fixed literal and is omitted). -/
structure WheelVariantJSON_V0_0_3 where
  default_priorities : DefaultPriorities
  providers : SMap ProviderV3
  static_properties : Option (SMap (SMap (List String)))
  variants : Variants
deriving DecidableEq, Repr

/-- The `min_length=1` constraint on `default-priorities.namespace`, the
only structural v0.0.2 constraint not already captured by the field types. -/
def validV2 (m : WheelVariantJSON_V0_0_2) : Bool :=
  decide (1 ≤ m.default_priorities.nspace.length)

/-- Provider conversion inside `to_v0_0_3`:
`_data["install-time"] = _data.pop("plugin_use", "all") == "all"` — the
default is `"all"` when `plugin-use` is absent — and `plugin-use` is
dropped from the output. -/
def providerToV3 (p : ProviderV2) : ProviderV3 :=
  { plugin_api := p.plugin_api
    enable_if := p.enable_if
    install_time := some ((p.plugin_use.getD "all") == "all")
    optional := p.optional
    requires := p.requires }

/-- `WheelVariantJSON_V0_0_2.to_v0_0_3`: `default-priorities` is dumped and
re-validated unchanged (its `property` field included); each provider is
converted; `static-properties` is rebuilt entry-for-entry from
`default-priorities.property`; `variants` is copied directly. -/
def to_v0_0_3 (m : WheelVariantJSON_V0_0_2) : WheelVariantJSON_V0_0_3 :=
  { default_priorities := m.default_priorities
    providers := m.providers.map (fun np => (np.1, providerToV3 np.2))
    static_properties := some (m.default_priorities.property.map
      (fun nsf => (nsf.1, nsf.2.map (fun fv => (fv.1, fv.2)))))
    variants := m.variants }

/-- A concrete valid v0.0.2 document with a non-empty
`default-priorities.property`. -/
def exampleV2 : WheelVariantJSON_V0_0_2 :=
  { default_priorities :=
      { nspace := ["cpu"]
        feature := [("cpu", ["x86"])]
        property := [("cpu", [("x86", ["sse2", "avx"])])] }
    providers := [("cpu_provider",
      { plugin_api := some "my_module:CPUProvider"
        enable_if := none
        optional := some false
        plugin_use := some "build"
        requires := none })]
    variants := [("cpu_opt", [("cpu", [("x86", ["avx"])])])] }

/-- Rebuilding a nested property map entry-for-entry is the identity. -/
theorem property_rebuild_id (l : SMap (SMap (List String))) :
    l.map (fun nsf => (nsf.1, nsf.2.map (fun fv => (fv.1, fv.2)))) = l := by
  have hinner : (fun fv : String × List String => (fv.1, fv.2)) = id := by
    funext fv
    rfl
  have houter : (fun nsf : String × SMap (List String) =>
      (nsf.1, nsf.2.map (fun fv => (fv.1, fv.2)))) = id := by
    funext nsf
    rw [hinner, List.map_id]
    rfl
  rw [houter, List.map_id]

/- ------------------------------------------------------------------ -/
/- C2                                                                  -/
/- ------------------------------------------------------------------ -/

/-- **C2** (counterexample to the claim as stated).  On a valid v0.0.2
document with a non-empty `default-priorities.property`, migration builds
`static-properties` from it but also carries `default-priorities` over
unchanged, so the property content *is* duplicated in the migrated
`default-priorities`, contrary to the claim. -/
theorem C2_counterexample :
    validV2 exampleV2 = true ∧
    (to_v0_0_3 exampleV2).static_properties =
      some exampleV2.default_priorities.property ∧
    (to_v0_0_3 exampleV2).default_priorities.property =
      exampleV2.default_priorities.property ∧
    exampleV2.default_priorities.property ≠ [] := by
  refine ⟨by decide, ?_, rfl, by decide⟩
  show some (exampleV2.default_priorities.property.map _) = _
  rw [property_rebuild_id]

/-- **C2** (amended).  For every valid v0.0.2 document, migration produces
a document whose top-level `static-properties` equals the input's
`default-priorities.property` (identical shape), and whose migrated
`default-priorities` is the input's `default-priorities` unchanged — so the
property content appears in both places (it *is* duplicated). -/
theorem C2_migration_static_properties (m : WheelVariantJSON_V0_0_2)
    (_h : validV2 m = true) :
    (to_v0_0_3 m).static_properties = some m.default_priorities.property ∧
    (to_v0_0_3 m).default_priorities = m.default_priorities := by
  refine ⟨?_, rfl⟩
  show some (m.default_priorities.property.map _) = _
  rw [property_rebuild_id]

/-- Witness for `C2_migration_static_properties` at the concrete document
`exampleV2`. -/
theorem C2_migration_static_properties_witness :
    validV2 exampleV2 = true ∧
    ((to_v0_0_3 exampleV2).static_properties =
        some exampleV2.default_priorities.property ∧
      (to_v0_0_3 exampleV2).default_priorities =
        exampleV2.default_priorities) :=
  ⟨by decide, C2_migration_static_properties exampleV2 (by decide)⟩

/- ------------------------------------------------------------------ -/
/- Versions (`packaging.version.Version`, collaborator)                -/
/- ------------------------------------------------------------------ -/

/-- Python `str.split(sep)` on a single-character separator
(`"".split(sep)` gives `[""]`). -/
def splitOnC (sep : Char) : List Char → List (List Char)
  | [] => [[]]
  | d :: rest =>
      match splitOnC sep rest with
      | [] => [[]]
      | grp :: grps => if d = sep then [] :: grp :: grps else (d :: grp) :: grps

/-- Strip trailing zero components, the PEP 440 release normalization
(`1.0 == 1 == 1.0.0`). -/
def normRelease (l : List Nat) : List Nat :=
  (l.reverse.dropWhile (· = 0)).reverse

/-- Modelled from the spec: the "parsed semantic version" collaborator
(`packaging.version.Version`, an external library not in the repository),
restricted to dotted numeric releases.  A version is its normalized list of
numeric release components; comparison is the lexicographic order on
`List Nat` (equivalent, on normalized lists, to PEP 440 zero-padded
comparison); any other string raises `InvalidVersion` (here: `none`). -/
def parseVersion (s : List Char) : Option (List Nat) :=
  let parts := splitOnC '.' s
  if parts.all (fun p => !p.isEmpty && p.all Char.isDigit) then
    some (normRelease (parts.map
      (fun p => p.foldl (fun n c => n * 10 + (c.toNat - 48)) 0)))
  else none

/-- Errors raised by the pipeline.  The four `ValueError` raise sites of
the source are distinguished by constructor. -/
inductive PyErr where
  | httpError       -- requests.exceptions.HTTPError (raise_for_status)
  | otherTransport  -- other requests failures (ConnectionError, Timeout)
  | typeError       -- TypeError: unexpected object on pypi.org
  | indexError      -- IndexError: name.split("-") has no second element
  | invalidVersion  -- packaging InvalidVersion
  | keyError        -- dict lookup failure
  | unsupported     -- VariantVersionNotSupportedError
  | validationError -- pydantic / jsonschema validation failure
  | dupVersion      -- ValueError: variant JSON for version already exists
  | invalidFormat   -- ValueError: invalid variant JSON file format
  | parseFailure    -- ValueError: impossible to match the regex
  | unknownExt      -- ValueError: unknown file extension
deriving DecidableEq, Repr

/-- `pkg_name_to_version`: `Version(pkg_name.split("-", maxsplit=2)[1])`;
`[1]` raises `IndexError` when the name has no hyphen, `Version` raises
`InvalidVersion` on a non-release string. -/
def pkgNameVersion (name : List Char) : Except PyErr (List Nat) :=
  match splitOnC '-' name with
  | _ :: v :: _ =>
      match parseVersion v with
      | some ver => .ok ver
      | none => .error .invalidVersion
  | _ => .error .indexError

/- ------------------------------------------------------------------ -/
/- Artifacts and registry scanning (`fetch_links`, `collect_all_links`) -/
/- ------------------------------------------------------------------ -/

/-- A classified artifact: `VariantJson` or `VariantWheel` of `build.py`
(`vprops` augmentation is a separate record below). -/
inductive Artifact where
  | vjson (name link checksum : List Char)
  | wheel (name link checksum : List Char)
deriving DecidableEq, Repr

/-- The displayed filename of the artifact. -/
def Artifact.name : Artifact → List Char
  | .vjson n _ _ => n
  | .wheel n _ _ => n

/-- The resolved absolute link of the artifact. -/
def Artifact.link : Artifact → List Char
  | .vjson _ l _ => l
  | .wheel _ l _ => l

/-- Whether the artifact is a wheel (`isinstance(artifact, VariantWheel)`). -/
def Artifact.isWheel : Artifact → Bool
  | .vjson _ _ _ => false
  | .wheel _ _ _ => true

/-- The outcome of `fetch_links(url)`: a classified artifact list, an
`HTTPError` from `raise_for_status` (any non-2xx response), or any other
exception (connection/timeout transport failures; also the `ValueError`
`fetch_links` raises on an unknown displayed extension). -/
inductive FetchResult where
  | ok (arts : List Artifact)
  | httpError
  | otherError
deriving DecidableEq, Repr

/-- `safe_urljoin`, modelling the `urljoin` collaborator on the
relative-path inputs used here: the base gets a trailing slash and the
path is appended. -/
def safe_urljoin (base path : List Char) : List Char :=
  (if base.getLast? = some '/' then base else base ++ ['/']) ++ path

/-- `PkgConfig`. -/
structure PkgConfig where
  name : List Char
  registry : List Char
deriving DecidableEq, Repr

/-- The authoritative listing URL fetched by `collect_all_links`. -/
def authURL (cfg : PkgConfig) : List Char :=
  safe_urljoin cfg.registry (cfg.name ++ ['/'])

/-- The fallback public index URL fetched by `collect_all_links`. -/
def fallbackURL (cfg : PkgConfig) : List Char :=
  safe_urljoin "https://pypi.org/simple".data (cfg.name ++ ['/'])

/-- The set comprehension `variant_versions`: the parsed versions of the
wheel artifacts of the authoritative listing (first parse failure
propagates). -/
def wheelVersions : List Artifact → Except PyErr (List (List Nat))
  | [] => .ok []
  | a :: rest =>
      if a.isWheel then
        match pkgNameVersion a.name with
        | .error e => .error e
        | .ok v =>
            match wheelVersions rest with
            | .error e => .error e
            | .ok vs => .ok (v :: vs)
      else wheelVersions rest

/-- The fallback loop of `collect_all_links`: a `VariantJson` raises
`TypeError`; a wheel is appended only when its parsed version is not in
`variant_versions`. -/
def collectFallback : List Artifact → List (List Nat) →
    Except PyErr (List Artifact)
  | [], _ => .ok []
  | a :: rest, vvs =>
      match a with
      | .vjson _ _ _ => .error .typeError
      | .wheel _ _ _ =>
          match pkgNameVersion a.name with
          | .error e => .error e
          | .ok v =>
              match collectFallback rest vvs with
              | .error e => .error e
              | .ok kept => if v ∈ vvs then .ok kept else .ok (a :: kept)

/-- `collect_all_links`: fetch the authoritative listing (failures are
fatal), compute the authoritative wheel versions, then fetch the fallback
index under `contextlib.suppress(requests.exceptions.HTTPError)` — an
`HTTPError` is swallowed (the loop never runs) but any other exception
propagates — and append the surviving fallback wheels. -/
def collect_all_links (fetch : List Char → FetchResult) (cfg : PkgConfig) :
    Except PyErr (List Artifact) :=
  match fetch (authURL cfg) with
  | .httpError => .error .httpError
  | .otherError => .error .otherTransport
  | .ok arts =>
      match wheelVersions arts with
      | .error e => .error e
      | .ok vvs =>
          match fetch (fallbackURL cfg) with
          | .httpError => .ok arts
          | .otherError => .error .otherTransport
          | .ok fbArts =>
              match collectFallback fbArts vvs with
              | .error e => .error e
              | .ok kept => .ok (arts ++ kept)

/- ------------------------------------------------------------------ -/
/- C3 / C4                                                             -/
/- ------------------------------------------------------------------ -/

/-- Membership in the surviving fallback list: an artifact is kept exactly
when it occurs in the fallback listing and its parsed version is not among
the authoritative wheel versions. -/
theorem collectFallback_spec :
    ∀ (l : List Artifact) (vvs : List (List Nat)) (kept : List Artifact),
      collectFallback l vvs = .ok kept →
      ∀ a, a ∈ kept ↔
        a ∈ l ∧ ∀ v, pkgNameVersion a.name = .ok v → v ∉ vvs := by
  intro l
  induction l with
  | nil =>
    intro vvs kept h a
    simp only [collectFallback] at h
    cases h
    simp
  | cons b rest ih =>
    intro vvs kept h a
    rw [collectFallback.eq_def] at h
    dsimp only at h
    cases b with
    | vjson n lk c => exact absurd h (by simp)
    | wheel n lk c =>
      dsimp only at h
      cases hv : pkgNameVersion (Artifact.wheel n lk c).name with
      | error e => rw [hv] at h; exact absurd h (by simp)
      | ok v =>
        rw [hv] at h
        cases hrec : collectFallback rest vvs with
        | error e => rw [hrec] at h; exact absurd h (by simp)
        | ok kept' =>
          rw [hrec] at h
          dsimp only at h
          by_cases hmem : v ∈ vvs
          · rw [if_pos hmem] at h
            cases h
            rw [ih vvs _ hrec a]
            constructor
            · exact fun ⟨hal, hv'⟩ => ⟨List.mem_cons_of_mem _ hal, hv'⟩
            · rintro ⟨hal, hv'⟩
              rcases List.mem_cons.mp hal with rfl | hal'
              · exact absurd hmem (hv' v hv)
              · exact ⟨hal', hv'⟩
          · rw [if_neg hmem] at h
            cases h
            constructor
            · intro hak
              rcases List.mem_cons.mp hak with rfl | hak'
              · refine ⟨List.mem_cons_self _ _, ?_⟩
                intro v' hv'
                rw [hv] at hv'
                cases hv'
                exact hmem
              · obtain ⟨hal, hv'⟩ := (ih vvs _ hrec a).mp hak'
                exact ⟨List.mem_cons_of_mem _ hal, hv'⟩
            · rintro ⟨hal, hv'⟩
              rcases List.mem_cons.mp hal with rfl | hal'
              · exact List.mem_cons_self _ _
              · exact List.mem_cons_of_mem _
                  ((ih vvs _ hrec a).mpr ⟨hal', hv'⟩)

/-- **C3**.  When collection succeeds with both registries reachable, the
result is the authoritative artifact list followed by exactly those
fallback wheels whose parsed version is not among the authoritative wheel
versions: every authoritative artifact is kept, and a fallback wheel is
kept iff its version is not already present (the authoritative source
wins). -/
theorem C3_duplicate_version_suppression
    (fetch : List Char → FetchResult) (cfg : PkgConfig)
    (authArts fbArts res : List Artifact)
    (hauth : fetch (authURL cfg) = .ok authArts)
    (hfb : fetch (fallbackURL cfg) = .ok fbArts)
    (hres : collect_all_links fetch cfg = .ok res) :
    ∃ vvs kept,
      wheelVersions authArts = .ok vvs ∧
      collectFallback fbArts vvs = .ok kept ∧
      res = authArts ++ kept ∧
      (∀ a ∈ authArts, a ∈ res) ∧
      (∀ a ∈ fbArts, ∀ v, pkgNameVersion a.name = .ok v →
        (a ∈ kept ↔ v ∉ vvs)) := by
  rw [collect_all_links, hauth] at hres
  dsimp only at hres
  cases hvv : wheelVersions authArts with
  | error e => rw [hvv] at hres; exact absurd hres (by simp)
  | ok vvs =>
    rw [hvv] at hres
    dsimp only at hres
    rw [hfb] at hres
    dsimp only at hres
    cases hcf : collectFallback fbArts vvs with
    | error e => rw [hcf] at hres; exact absurd hres (by simp)
    | ok kept =>
      rw [hcf] at hres
      dsimp only at hres
      cases hres
      refine ⟨vvs, kept, rfl, hcf, rfl, fun a ha => List.mem_append_left _ ha, ?_⟩
      intro a ha v hv
      rw [collectFallback_spec fbArts vvs kept hcf a]
      constructor
      · rintro ⟨-, hall⟩
        exact hall v hv
      · intro hnot
        refine ⟨ha, ?_⟩
        intro v' hv'
        rw [hv] at hv'
        cases hv'
        exact hnot

/-- Example package configuration used by the witnesses. -/
def cfgEx : PkgConfig :=
  ⟨"pkg".data, "https://example.com/idx".data⟩

/-- Authoritative listing of the C3 witness scenario. -/
def authArtsEx : List Artifact :=
  [Artifact.wheel "pkg-1.0-py3-none-any.whl".data "https://example.com/idx/pkg/pkg-1.0-py3-none-any.whl".data [],
   Artifact.vjson "pkg-1.0-variants.json".data "https://example.com/idx/pkg/pkg-1.0-variants.json".data []]

/-- Fallback listing of the C3 witness scenario: one wheel duplicating
version 1.0 and one wheel with the new version 2.0. -/
def fbArtsEx : List Artifact :=
  [Artifact.wheel "pkg-1.0-py3-none-many.whl".data "https://pypi.org/simple/pkg/pkg-1.0-py3-none-many.whl".data [],
   Artifact.wheel "pkg-2.0-py3-none-any.whl".data "https://pypi.org/simple/pkg/pkg-2.0-py3-none-any.whl".data []]

/-- Fetch oracle of the C3 witness scenario. -/
def fetchEx : List Char → FetchResult := fun url =>
  if url = authURL cfgEx then .ok authArtsEx
  else if url = fallbackURL cfgEx then .ok fbArtsEx
  else .otherError

/-- Witness for `C3_duplicate_version_suppression` on the concrete
scenario: the duplicate-version 1.0 fallback wheel is dropped and the
version 2.0 fallback wheel is kept. -/
theorem C3_duplicate_version_suppression_witness :
    ∃ vvs kept,
      wheelVersions authArtsEx = .ok vvs ∧
      collectFallback fbArtsEx vvs = .ok kept ∧
      (authArtsEx ++ [Artifact.wheel "pkg-2.0-py3-none-any.whl".data "https://pypi.org/simple/pkg/pkg-2.0-py3-none-any.whl".data []]) = authArtsEx ++ kept ∧
      (∀ a ∈ authArtsEx, a ∈ authArtsEx ++ [Artifact.wheel "pkg-2.0-py3-none-any.whl".data "https://pypi.org/simple/pkg/pkg-2.0-py3-none-any.whl".data []]) ∧
      (∀ a ∈ fbArtsEx, ∀ v, pkgNameVersion a.name = .ok v →
        (a ∈ kept ↔ v ∉ vvs)) :=
  C3_duplicate_version_suppression fetchEx cfgEx authArtsEx fbArtsEx _
    rfl rfl rfl

/-- Fetch oracle of the C4 counterexample: the authoritative registry
responds, the fallback index fails with a non-HTTP transport failure
(connection error / timeout). -/
def fetchC4 : List Char → FetchResult := fun url =>
  if url = authURL cfgEx then .ok [] else .otherError

/-- **C4** (counterexample to the claim as stated).  Only
`requests.exceptions.HTTPError` is suppressed around the fallback fetch
(`contextlib.suppress(requests.exceptions.HTTPError)`); a non-HTTP
transport failure (connection error or timeout) from the fallback index
propagates instead of being swallowed, so the result is not "as if the
fallback listed nothing". -/
theorem C4_counterexample :
    fetchC4 (authURL cfgEx) = .ok [] ∧
    fetchC4 (fallbackURL cfgEx) = .otherError ∧
    collect_all_links fetchC4 cfgEx = .error .otherTransport := by
  exact ⟨rfl, rfl, rfl⟩

/-- **C4** (amended).  A non-2xx HTTP response (`HTTPError`) while fetching
the fallback public index is swallowed — the result is as if the fallback
listed nothing — but any other transport failure from the fallback
propagates; any transport failure while fetching the authoritative
registry's listing is fatal for the package. -/
theorem C4_transport_behavior (fetch : List Char → FetchResult)
    (cfg : PkgConfig) :
    (∀ arts vvs, fetch (authURL cfg) = .ok arts →
      wheelVersions arts = .ok vvs →
      fetch (fallbackURL cfg) = .httpError →
      collect_all_links fetch cfg = .ok arts) ∧
    (∀ arts vvs, fetch (authURL cfg) = .ok arts →
      wheelVersions arts = .ok vvs →
      fetch (fallbackURL cfg) = .otherError →
      collect_all_links fetch cfg = .error .otherTransport) ∧
    (fetch (authURL cfg) = .httpError →
      collect_all_links fetch cfg = .error .httpError) ∧
    (fetch (authURL cfg) = .otherError →
      collect_all_links fetch cfg = .error .otherTransport) := by
  refine ⟨?_, ?_, ?_, ?_⟩
  · intro arts vvs hauth hvv hfb
    rw [collect_all_links, hauth]
    dsimp only
    rw [hvv]
    dsimp only
    rw [hfb]
  · intro arts vvs hauth hvv hfb
    rw [collect_all_links, hauth]
    dsimp only
    rw [hvv]
    dsimp only
    rw [hfb]
  · intro hauth
    rw [collect_all_links, hauth]
  · intro hauth
    rw [collect_all_links, hauth]

/-- Fetch oracle for the C4 witness, fallback failing with `HTTPError`
(swallowed). -/
def fetchC4w : List Char → FetchResult := fun url =>
  if url = authURL cfgEx then .ok authArtsEx else .httpError

/-- Witness for `C4_transport_behavior` on concrete oracles: an `HTTPError`
fallback is swallowed, a non-HTTP fallback failure is fatal, and both kinds
of authoritative failure are fatal. -/
theorem C4_transport_behavior_witness :
    collect_all_links fetchC4w cfgEx = .ok authArtsEx ∧
    collect_all_links fetchC4 cfgEx = .error .otherTransport ∧
    collect_all_links (fun _ => .httpError) cfgEx = .error .httpError ∧
    collect_all_links (fun _ => .otherError) cfgEx = .error .otherTransport :=
  ⟨(C4_transport_behavior fetchC4w cfgEx).1 authArtsEx _ rfl rfl rfl,
   (C4_transport_behavior fetchC4 cfgEx).2.1 [] [] rfl rfl rfl,
   (C4_transport_behavior (fun _ => .httpError) cfgEx).2.2.1 rfl,
   (C4_transport_behavior (fun _ => .otherError) cfgEx).2.2.2 rfl⟩

/- ------------------------------------------------------------------ -/
/- Variant documents and the reconciler (`generate_project_index`)     -/
/- ------------------------------------------------------------------ -/

/-- Namespace map of one variant entry: namespace -> feature -> values
(all strings as `List Char`, the reconciler's working representation). -/
abbrev NsMap := List (List Char × List (List Char × List (List Char)))

/-- The `variants` object of a loaded document: label -> namespace map. -/
abbrev VarMap := List (List Char × NsMap)

/-- A decoded variant JSON document as the pipeline observes it: the
declared `$schema` (`none` means the key is missing and access raises
`KeyError`), the `variants` object when present, and the outcomes of the
external pydantic / jsonschema validation collaborators abstracted as
booleans carried on the document. -/
structure RawDoc where
  schemaUrl : Option (List Char)
  variants : Option VarMap
  v2ok : Bool
  v3ok : Bool
  remoteOk : Bool
deriving Repr

/-- The per-version flattened configuration: variant label ->
`"<ns> :: <feature> :: <value>"` strings, in source order. -/
abbrev Configs := List (List Char × List (List Char × List (List Char)))

/-- Flatten one variant entry, iterating namespaces, then features, then
values, preserving source ordering. -/
def flattenNs (m : NsMap) : List (List Char) :=
  m.flatMap (fun nsf => nsf.2.flatMap (fun fv =>
    fv.2.map (fun v => nsf.1 ++ " :: ".data ++ fv.1 ++ " :: ".data ++ v)))

/-- Flatten a document's `variants` map into label -> flattened strings. -/
def flattenVariants (vm : VarMap) : List (List Char × List (List Char)) :=
  vm.map (fun av => (av.1, flattenNs av.2))

/-- `VariantJson.version`: `re_match(VARIANT_JSON_FILE_REGEX).group(1)`,
raising `ValueError` when the name does not match. -/
def vjsonVersion (name : List Char) : Except PyErr (List Char) :=
  match vjsonMatch name with
  | some v => .ok v
  | none => .error .parseFailure

/-- The ascending name order used for `sorted(variants_json_files,
key=lambda x: x.name)`. -/
def vjBefore (a b : Artifact) : Prop :=
  ¬ b.name < a.name

instance : DecidableRel vjBefore := fun _ _ => instDecidableNot

/-- The variant documents of a package, sorted by filename. -/
def sortedVJ (arts : List Artifact) : List Artifact :=
  List.insertionSort vjBefore (arts.filter (fun a => !a.isWheel))

/-- The variant-document loop of `generate_project_index`: for each
document in filename order, read its `version` (a parse failure raises),
fail fatally when the version is already populated, load the document
(`VariantVersionNotSupportedError` is caught: warn and skip; any other
load failure propagates), fail fatally when the loaded document has no
`variants` key, and otherwise populate the flattened map. -/
def processDocs (loader : List Char → Except PyErr RawDoc) :
    List Artifact → Configs → Except PyErr Configs
  | [], cfgs => .ok cfgs
  | f :: rest, cfgs =>
      match vjsonVersion f.name with
      | .error e => .error e
      | .ok v =>
          if (cfgs.lookup v).isSome then .error .dupVersion
          else
            match loader f.link with
            | .error .unsupported => processDocs loader rest cfgs
            | .error e => .error e
            | .ok data =>
                match data.variants with
                | none => .error .invalidFormat
                | some vm => processDocs loader rest (cfgs ++ [(v, flattenVariants vm)])

/-- A reconciled wheel record (`VariantWheel` with its `vprops`). -/
structure WheelRecord where
  name : List Char
  link : List Char
  checksum : List Char
  vprops : List (List Char)
deriving DecidableEq, Repr

/-- The wheel comprehension of `generate_project_index`: keep a wheel when
it has no variant label (with `vprops = []`) or when its version is in the
flattened map; for a kept labeled wheel, `vprops` is the unguarded lookup
`variant_configs[version][label]`, whose failure (`KeyError`) propagates;
an unparsable wheel name raises `ValueError` from the accessors. -/
def buildWheels (cfgs : Configs) : List Artifact → Except PyErr (List WheelRecord)
  | [] => .ok []
  | a :: rest =>
      match a with
      | .vjson _ _ _ => buildWheels cfgs rest
      | .wheel n lk ck =>
          match wheelMatch n with
          | none => .error .parseFailure
          | some t =>
              match t.wlabel with
              | none =>
                  match buildWheels cfgs rest with
                  | .error e => .error e
                  | .ok ws => .ok (⟨n, lk, ck, []⟩ :: ws)
              | some lb =>
                  match cfgs.lookup t.wver with
                  | none => buildWheels cfgs rest
                  | some amap =>
                      match amap.lookup lb with
                      | none => .error .keyError
                      | some props =>
                          match buildWheels cfgs rest with
                          | .error e => .error e
                          | .ok ws => .ok (⟨n, lk, ck, props⟩ :: ws)

/-- The sort key of the final wheel sort:
`(Version(x.name.split("-", maxsplit=2)[1]), x.name)`. -/
def wheelSortKey (w : WheelRecord) : Except PyErr (List Nat × List Char) :=
  match pkgNameVersion w.name with
  | .error e => .error e
  | .ok v => .ok (v, w.name)

/-- Decorate each wheel with its sort key (`sorted` computes every key, in
list order, before comparing). -/
def keyedWheels : List WheelRecord →
    Except PyErr (List ((List Nat × List Char) × WheelRecord))
  | [] => .ok []
  | w :: rest =>
      match wheelSortKey w with
      | .error e => .error e
      | .ok k =>
          match keyedWheels rest with
          | .error e => .error e
          | .ok kws => .ok ((k, w) :: kws)

/-- Python tuple comparison on the sort keys: version first, then name. -/
def keyLT (a b : List Nat × List Char) : Prop :=
  a.1 < b.1 ∨ (a.1 = b.1 ∧ a.2 < b.2)

instance : DecidableRel keyLT := fun _ _ => instDecidableOr

/-- The descending order of `sorted(..., reverse=True)`: `x` may precede
`y` when the key of `x` is not smaller than the key of `y`. -/
def recBefore (x y : (List Nat × List Char) × WheelRecord) : Prop :=
  ¬ keyLT x.1 y.1

instance : DecidableRel recBefore := fun _ _ => instDecidableNot

/-- The reconciliation portion of `generate_project_index` for one
package, given the collected artifacts and the `load_variant_json`
outcome per document link: build the flattened per-version map, filter
and augment the wheels, sort them descending by `(version, name)`, and
yield no index (`none`) when the final list is empty. -/
def reconcile (loader : List Char → Except PyErr RawDoc)
    (artifacts : List Artifact) : Except PyErr (Option (List WheelRecord)) :=
  match processDocs loader (sortedVJ artifacts) [] with
  | .error e => .error e
  | .ok cfgs =>
      match buildWheels cfgs artifacts with
      | .error e => .error e
      | .ok ws =>
          match keyedWheels ws with
          | .error e => .error e
          | .ok kws =>
              let sorted := (List.insertionSort recBefore kws).map (fun kw => kw.2)
              if sorted.isEmpty then .ok none else .ok (some sorted)

/- ------------------------------------------------------------------ -/
/- C5                                                                  -/
/- ------------------------------------------------------------------ -/

theorem insertionSort_pair (a b : Artifact) (h : vjBefore a b) :
    List.insertionSort vjBefore [a, b] = [a, b] := by
  simp [List.insertionSort, List.orderedInsert, h]

theorem insertionSort_pair_swap (a b : Artifact) (h : ¬ vjBefore a b) :
    List.insertionSort vjBefore [a, b] = [b, a] := by
  simp [List.insertionSort, List.orderedInsert, h]

/-- **C5**.  Variant documents are processed sorted by filename; when two
documents of one package carry the same version and the earlier one (by
filename) loads successfully, reconciliation fails fatally with the
duplicate-version error — whatever the loader would answer for the later
document, which is therefore never loaded. -/
theorem C5_duplicate_version_fatal
    (loader : List Char → Except PyErr RawDoc) (arts : List Artifact)
    (f₁ f₂ : Artifact) (v : List Char) (d₁ : RawDoc) (vm : VarMap)
    (hfilter : arts.filter (fun a => !a.isWheel) = [f₁, f₂] ∨
      arts.filter (fun a => !a.isWheel) = [f₂, f₁])
    (horder : f₁.name < f₂.name)
    (hv₁ : vjsonMatch f₁.name = some v)
    (hv₂ : vjsonMatch f₂.name = some v)
    (hload : loader f₁.link = .ok d₁)
    (hvm : d₁.variants = some vm) :
    reconcile loader arts = .error .dupVersion := by
  have hv₁' : vjsonVersion f₁.name = .ok v := by
    rw [vjsonVersion, hv₁]
  have hv₂' : vjsonVersion f₂.name = .ok v := by
    rw [vjsonVersion, hv₂]
  have hsort : sortedVJ arts = [f₁, f₂] := by
    rw [sortedVJ]
    rcases hfilter with hf | hf
    · rw [hf]
      exact insertionSort_pair f₁ f₂ (fun hlt => absurd horder (lt_asymm hlt))
    · rw [hf]
      exact insertionSort_pair_swap f₂ f₁ (not_not_intro horder)
  have step : processDocs loader [f₁, f₂] [] = .error .dupVersion := by
    simp only [processDocs, hv₁', hv₂', hload, hvm, List.lookup]
    simp
  rw [reconcile, hsort, step]

/-- Concrete duplicate-version scenario: two documents both extracting
version `1.0`. -/
def artsC5 : List Artifact :=
  [Artifact.vjson "b-1.0-variants.json".data "LB".data [],
   Artifact.vjson "a-1.0-variants.json".data "LA".data []]

/-- Document returned for the first (by filename) C5 document. -/
def docC5 : RawDoc :=
  ⟨some "https://variants-schema.wheelnext.dev/v0.0.3.json".data,
    some [("aa".data, [("cpu".data, [("x86".data, ["avx".data])])])],
    true, true, true⟩

/-- Loader of the C5 scenario (the later document's load outcome is an
error, which must not matter: the duplicate check fires first). -/
def loaderC5 : List Char → Except PyErr RawDoc := fun l =>
  if l = "LA".data then .ok docC5 else .error .otherTransport

/-- Witness for `C5_duplicate_version_fatal` on the concrete scenario
(the two documents are listed out of filename order, and the duplicate is
rejected before its — failing — load could matter). -/
theorem C5_duplicate_version_fatal_witness :
    reconcile loaderC5 artsC5 = .error .dupVersion :=
  C5_duplicate_version_fatal loaderC5 artsC5
    (Artifact.vjson "a-1.0-variants.json".data "LA".data [])
    (Artifact.vjson "b-1.0-variants.json".data "LB".data [])
    "1.0".data docC5
    [("aa".data, [("cpu".data, [("x86".data, ["avx".data])])])]
    (Or.inr (by decide)) (by decide) (by decide) (by decide) rfl rfl

/- ------------------------------------------------------------------ -/
/- C6                                                                  -/
/- ------------------------------------------------------------------ -/

/-- Every plain wheel artifact (no variant label) contributes a record
with empty `vprops` to the comprehension's result. -/
theorem buildWheels_plain_mem (cfgs : Configs) :
    ∀ (l : List Artifact) (ws : List WheelRecord),
      buildWheels cfgs l = .ok ws →
      ∀ n lk ck t, Artifact.wheel n lk ck ∈ l → wheelMatch n = some t →
        t.wlabel = none → WheelRecord.mk n lk ck [] ∈ ws := by
  intro l
  induction l with
  | nil => intro ws _ n lk ck t hmem; simp at hmem
  | cons a rest ih =>
    intro ws h n lk ck t hmem hmatch hlab
    rw [buildWheels.eq_def] at h
    dsimp only at h
    cases a with
    | vjson n' lk' ck' =>
      rcases List.mem_cons.mp hmem with heq | hmem'
      · exact absurd heq (by simp)
      · exact ih ws h n lk ck t hmem' hmatch hlab
    | wheel n' lk' ck' =>
      dsimp only at h
      cases hm' : wheelMatch n' with
      | none => rw [hm'] at h; exact absurd h (by simp)
      | some t' =>
        rw [hm'] at h
        dsimp only at h
        rcases List.mem_cons.mp hmem with heq | hmem'
        · injection heq with e₁ e₂ e₃
          subst e₁ e₂ e₃
          rw [hmatch] at hm'
          injection hm' with e₄
          subst e₄
          rw [hlab] at h
          dsimp only at h
          cases hrec : buildWheels cfgs rest with
          | error e => rw [hrec] at h; exact absurd h (by simp)
          | ok ws' =>
            rw [hrec] at h
            dsimp only at h
            cases h
            exact List.mem_cons_self _ _
        · cases hl' : t'.wlabel with
          | none =>
            rw [hl'] at h
            dsimp only at h
            cases hrec : buildWheels cfgs rest with
            | error e => rw [hrec] at h; exact absurd h (by simp)
            | ok ws' =>
              rw [hrec] at h
              dsimp only at h
              cases h
              exact List.mem_cons_of_mem _ (ih ws' hrec n lk ck t hmem' hmatch hlab)
          | some lb' =>
            rw [hl'] at h
            dsimp only at h
            cases hcv : cfgs.lookup t'.wver with
            | none =>
              rw [hcv] at h
              exact ih ws h n lk ck t hmem' hmatch hlab
            | some amap =>
              rw [hcv] at h
              dsimp only at h
              cases hla : amap.lookup lb' with
              | none => rw [hla] at h; exact absurd h (by simp)
              | some props =>
                rw [hla] at h
                dsimp only at h
                cases hrec : buildWheels cfgs rest with
                | error e => rw [hrec] at h; exact absurd h (by simp)
                | ok ws' =>
                  rw [hrec] at h
                  dsimp only at h
                  cases h
                  exact List.mem_cons_of_mem _ (ih ws' hrec n lk ck t hmem' hmatch hlab)

/-- A labeled wheel whose version has no entry in the flattened map never
contributes a record: it is silently excluded. -/
theorem buildWheels_labeled_excluded (cfgs : Configs) :
    ∀ (l : List Artifact) (ws : List WheelRecord),
      buildWheels cfgs l = .ok ws →
      ∀ n t lb, wheelMatch n = some t → t.wlabel = some lb →
        cfgs.lookup t.wver = none →
        ∀ lk ck props, WheelRecord.mk n lk ck props ∉ ws := by
  intro l
  induction l with
  | nil =>
    intro ws h n t lb hmatch hlab hcv lk ck props
    rw [buildWheels] at h
    cases h
    simp
  | cons a rest ih =>
    intro ws h n t lb hmatch hlab hcv lk ck props hmem
    rw [buildWheels.eq_def] at h
    dsimp only at h
    cases a with
    | vjson n' lk' ck' => exact ih ws h n t lb hmatch hlab hcv lk ck props hmem
    | wheel n' lk' ck' =>
      dsimp only at h
      cases hm' : wheelMatch n' with
      | none => rw [hm'] at h; exact absurd h (by simp)
      | some t' =>
        rw [hm'] at h
        dsimp only at h
        cases hl' : t'.wlabel with
        | none =>
          rw [hl'] at h
          dsimp only at h
          cases hrec : buildWheels cfgs rest with
          | error e => rw [hrec] at h; exact absurd h (by simp)
          | ok ws' =>
            rw [hrec] at h
            dsimp only at h
            cases h
            rcases List.mem_cons.mp hmem with heq | hmem'
            · injection heq with e₁ e₂ e₃ e₄
              subst e₁
              rw [hmatch] at hm'
              injection hm' with e₅
              subst e₅
              rw [hlab] at hl'
              exact absurd hl' (by simp)
            · exact ih ws' hrec n t lb hmatch hlab hcv lk ck props hmem'
        | some lb' =>
          rw [hl'] at h
          dsimp only at h
          cases hcv' : cfgs.lookup t'.wver with
          | none =>
            rw [hcv'] at h
            exact ih ws h n t lb hmatch hlab hcv lk ck props hmem
          | some amap =>
            rw [hcv'] at h
            dsimp only at h
            cases hla : amap.lookup lb' with
            | none => rw [hla] at h; exact absurd h (by simp)
            | some props' =>
              rw [hla] at h
              dsimp only at h
              cases hrec : buildWheels cfgs rest with
              | error e => rw [hrec] at h; exact absurd h (by simp)
              | ok ws' =>
                rw [hrec] at h
                dsimp only at h
                cases h
                rcases List.mem_cons.mp hmem with heq | hmem'
                · injection heq with e₁ e₂ e₃ e₄
                  subst e₁
                  rw [hmatch] at hm'
                  injection hm' with e₅
                  subst e₅
                  rw [hcv] at hcv'
                  exact absurd hcv' (by simp)
                · exact ih ws' hrec n t lb hmatch hlab hcv lk ck props hmem'

/-- Dropping the keys recovers the wheel list. -/
theorem keyedWheels_proj :
    ∀ (ws : List WheelRecord) (kws : List ((List Nat × List Char) × WheelRecord)),
      keyedWheels ws = .ok kws → kws.map (fun kw => kw.2) = ws := by
  intro ws
  induction ws with
  | nil => intro kws h; rw [keyedWheels] at h; cases h; rfl
  | cons w rest ih =>
    intro kws h
    rw [keyedWheels] at h
    cases hk : wheelSortKey w with
    | error e => rw [hk] at h; exact absurd h (by simp)
    | ok k =>
      rw [hk] at h
      dsimp only at h
      cases hrec : keyedWheels rest with
      | error e => rw [hrec] at h; exact absurd h (by simp)
      | ok kws' =>
        rw [hrec] at h
        dsimp only at h
        cases h
        simp [ih kws' hrec]

/-- Each decorated pair carries the sort key of its wheel. -/
theorem keyedWheels_keys :
    ∀ (ws : List WheelRecord) (kws : List ((List Nat × List Char) × WheelRecord)),
      keyedWheels ws = .ok kws → ∀ kw ∈ kws, wheelSortKey kw.2 = .ok kw.1 := by
  intro ws
  induction ws with
  | nil => intro kws h kw hmem; rw [keyedWheels] at h; cases h; simp at hmem
  | cons w rest ih =>
    intro kws h kw hmem
    rw [keyedWheels] at h
    cases hk : wheelSortKey w with
    | error e => rw [hk] at h; exact absurd h (by simp)
    | ok k =>
      rw [hk] at h
      dsimp only at h
      cases hrec : keyedWheels rest with
      | error e => rw [hrec] at h; exact absurd h (by simp)
      | ok kws' =>
        rw [hrec] at h
        dsimp only at h
        cases h
        rcases List.mem_cons.mp hmem with heq | hmem'
        · subst heq; exact hk
        · exact ih kws' hrec kw hmem'

/-- Decompose a successful reconciliation into its pipeline stages. -/
theorem reconcile_ok_parts (loader : List Char → Except PyErr RawDoc)
    (arts : List Artifact) (res : Option (List WheelRecord))
    (h : reconcile loader arts = .ok res) :
    ∃ cfgs ws kws,
      processDocs loader (sortedVJ arts) [] = .ok cfgs ∧
      buildWheels cfgs arts = .ok ws ∧
      keyedWheels ws = .ok kws ∧
      res = (if ((List.insertionSort recBefore kws).map (fun kw => kw.2)).isEmpty
        then none
        else some ((List.insertionSort recBefore kws).map (fun kw => kw.2))) := by
  rw [reconcile] at h
  cases hdocs : processDocs loader (sortedVJ arts) [] with
  | error e => rw [hdocs] at h; exact absurd h (by simp)
  | ok cfgs =>
    rw [hdocs] at h
    dsimp only at h
    cases hws : buildWheels cfgs arts with
    | error e => rw [hws] at h; exact absurd h (by simp)
    | ok ws =>
      rw [hws] at h
      dsimp only at h
      cases hkw : keyedWheels ws with
      | error e => rw [hkw] at h; exact absurd h (by simp)
      | ok kws =>
        rw [hkw] at h
        dsimp only at h
        refine ⟨cfgs, ws, kws, rfl, hws, hkw, ?_⟩
        by_cases hemp :
            ((List.insertionSort recBefore kws).map (fun kw => kw.2)).isEmpty
        · rw [if_pos hemp]
          rw [if_pos hemp] at h
          injection h with h'
          exact h'.symm
        · rw [if_neg hemp]
          rw [if_neg hemp] at h
          injection h with h'
          exact h'.symm

/-- Sorted output and the pre-sort wheel list are permutations. -/
theorem sorted_perm_of_parts
    (ws : List WheelRecord) (kws : List ((List Nat × List Char) × WheelRecord))
    (hkw : keyedWheels ws = .ok kws) :
    ((List.insertionSort recBefore kws).map (fun kw => kw.2)).Perm ws := by
  have h1 : (List.insertionSort recBefore kws).Perm kws :=
    List.perm_insertionSort recBefore kws
  have h2 := h1.map (fun kw => kw.2)
  rw [keyedWheels_proj ws kws hkw] at h2
  exact h2

/-- **C6**.  In the final wheel list of a package: every plain wheel (no
variant label) appears with `vprops = []`, and a labeled wheel whose
version has no entry in the flattened variant map appears nowhere —
silently excluded, not errored. -/
theorem C6_plain_kept_labeled_dropped
    (loader : List Char → Except PyErr RawDoc) (arts : List Artifact)
    (cfgs : Configs) (res : Option (List WheelRecord))
    (hdocs : processDocs loader (sortedVJ arts) [] = .ok cfgs)
    (hres : reconcile loader arts = .ok res) :
    (∀ n lk ck t, Artifact.wheel n lk ck ∈ arts → wheelMatch n = some t →
      t.wlabel = none →
      ∃ ws, res = some ws ∧ WheelRecord.mk n lk ck [] ∈ ws) ∧
    (∀ n t lb, wheelMatch n = some t → t.wlabel = some lb →
      cfgs.lookup t.wver = none →
      ∀ ws lk ck props, res = some ws → WheelRecord.mk n lk ck props ∉ ws) := by
  obtain ⟨cfgs', ws, kws, hdocs', hws, hkw, hval⟩ :=
    reconcile_ok_parts loader arts res hres
  rw [hdocs] at hdocs'
  injection hdocs' with hcfgs
  subst hcfgs
  have hperm := sorted_perm_of_parts ws kws hkw
  constructor
  · intro n lk ck t hmem hmatch hlab
    have hin : WheelRecord.mk n lk ck [] ∈ ws :=
      buildWheels_plain_mem cfgs arts ws hws n lk ck t hmem hmatch hlab
    have hin' : WheelRecord.mk n lk ck [] ∈
        (List.insertionSort recBefore kws).map (fun kw => kw.2) :=
      hperm.mem_iff.mpr hin
    have hne :
        ((List.insertionSort recBefore kws).map (fun kw => kw.2)).isEmpty
          = false := by
      rcases hlist : (List.insertionSort recBefore kws).map (fun kw => kw.2)
        with - | ⟨x, xs⟩
      · rw [hlist] at hin'
        simp at hin'
      · rw [hlist]
        rfl
    refine ⟨(List.insertionSort recBefore kws).map (fun kw => kw.2), ?_, hin'⟩
    rw [hval, hne]
    rfl
  · intro n t lb hmatch hlab hcv ws₀ lk ck props hws₀ hmem
    have hnot := buildWheels_labeled_excluded cfgs arts ws hws n t lb
      hmatch hlab hcv lk ck props
    rw [hval] at hws₀
    by_cases hemp :
        ((List.insertionSort recBefore kws).map (fun kw => kw.2)).isEmpty
    · rw [if_pos hemp] at hws₀; exact absurd hws₀ (by simp)
    · rw [if_neg hemp] at hws₀
      injection hws₀ with h'
      subst h'
      exact hnot (hperm.mem_iff.mp hmem)

/-- C6 witness scenario: one plain wheel and one labeled wheel of a
version with no variant document. -/
def artsC6 : List Artifact :=
  [Artifact.wheel "pkg-1.0-py3-none-any.whl".data "W1".data [],
   Artifact.wheel "pkg-1.0-py3-none-any-abcd.whl".data "W2".data []]

/-- Loader of the C6 scenario (never consulted: there is no document). -/
def loaderC6 : List Char → Except PyErr RawDoc := fun _ =>
  .error .otherTransport

/-- The record the plain wheel contributes. -/
def wrPlainC6 : WheelRecord :=
  ⟨"pkg-1.0-py3-none-any.whl".data, "W1".data, [], []⟩

/-- The capture tuple of the plain C6 wheel. -/
def tPlainC6 : WheelTuple :=
  ⟨"pkg".data, "1.0".data, none, "py3".data, "none".data, "any".data, none⟩

/-- The capture tuple of the labeled C6 wheel. -/
def tLabC6 : WheelTuple :=
  ⟨"pkg".data, "1.0".data, none, "py3".data, "none".data, "any".data,
    some "abcd".data⟩

/-- Witness for `C6_plain_kept_labeled_dropped` on the concrete scenario:
the plain wheel is in the final list with empty `vprops`; the labeled
wheel (whose version 1.0 has no variant document) is not, and no error is
raised. -/
theorem C6_plain_kept_labeled_dropped_witness :
    (∃ ws, (some [wrPlainC6] : Option (List WheelRecord)) = some ws ∧
      wrPlainC6 ∈ ws) ∧
    (∀ props, WheelRecord.mk "pkg-1.0-py3-none-any-abcd.whl".data "W2".data []
      props ∉ [wrPlainC6]) := by
  have h := C6_plain_kept_labeled_dropped loaderC6 artsC6 [] (some [wrPlainC6])
    rfl rfl
  constructor
  · exact h.1 "pkg-1.0-py3-none-any.whl".data "W1".data [] tPlainC6
      (List.mem_cons_self _ _) rfl rfl
  · intro props
    exact h.2 "pkg-1.0-py3-none-any-abcd.whl".data tLabC6 "abcd".data rfl rfl rfl
      [wrPlainC6] "W2".data [] props rfl

/- ------------------------------------------------------------------ -/
/- C7                                                                  -/
/- ------------------------------------------------------------------ -/

/-- C7 scenario: the variants map of the loaded document for version 1.0
declares only the label `aa`. -/
def vmC7 : VarMap :=
  [("aa".data, [("cpu".data, [("x86".data, ["avx".data, "sse".data])])])]

/-- The loaded document of the C7 scenario. -/
def docC7 : RawDoc :=
  ⟨some "https://variants-schema.wheelnext.dev/v0.0.3.json".data, some vmC7,
    true, true, true⟩

/-- C7 artifacts: a document for version 1.0 and a wheel labeled `zz` of
version 1.0 whose label is absent from that document. -/
def artsC7 : List Artifact :=
  [Artifact.vjson "x-1.0-variants.json".data "L1".data [],
   Artifact.wheel "pkg-1.0-py3-none-any-zz.whl".data "L2".data []]

/-- Loader of the C7 scenario. -/
def loaderC7 : List Char → Except PyErr RawDoc := fun l =>
  if l = "L1".data then .ok docC7 else .error .otherTransport

/-- The flattened map the C7 document produces. -/
def cfgsC7 : Configs := [("1.0".data, flattenVariants vmC7)]

/-- **C7**.  A labeled wheel whose version has a loaded variant document
but whose label is absent from that document's flattened map hits the
unguarded lookup `variant_configs[version][label]`: the error branch is
reachable and the package's reconciliation aborts with the lookup error
(the wheel is neither dropped nor given vprops). -/
theorem C7_label_lookup_error :
    processDocs loaderC7 (sortedVJ artsC7) [] = .ok cfgsC7 ∧
    (cfgsC7.lookup "1.0".data).isSome = true ∧
    ((cfgsC7.lookup "1.0".data).getD []).lookup "zz".data = none ∧
    reconcile loaderC7 artsC7 = .error .keyError :=
  ⟨rfl, rfl, rfl, rfl⟩

/- ------------------------------------------------------------------ -/
/- C8                                                                  -/
/- ------------------------------------------------------------------ -/

theorem keyLT_asymm (a b : List Nat × List Char) (h : keyLT a b) :
    ¬ keyLT b a := by
  rintro (g1 | ⟨g1, g2⟩) <;> rcases h with h1 | ⟨h1, h2⟩
  · exact absurd h1 (lt_asymm g1)
  · rw [h1] at g1; exact lt_irrefl _ g1
  · rw [g1] at h1; exact lt_irrefl _ h1
  · exact absurd h2 (lt_asymm g2)

theorem keyLT_connect (a b c : List Nat × List Char) (h : keyLT a c) :
    keyLT a b ∨ keyLT b c := by
  rcases h with h1 | ⟨h1, h2⟩
  · rcases lt_trichotomy a.1 b.1 with hx | hx | hx
    · exact Or.inl (Or.inl hx)
    · refine Or.inr (Or.inl ?_)
      rw [← hx]
      exact h1
    · exact Or.inr (Or.inl (lt_trans hx h1))
  · rcases lt_trichotomy a.1 b.1 with hx | hx | hx
    · exact Or.inl (Or.inl hx)
    · rcases lt_trichotomy a.2 b.2 with hy | hy | hy
      · exact Or.inl (Or.inr ⟨hx, hy⟩)
      · refine Or.inr (Or.inr ⟨?_, ?_⟩)
        · rw [← hx]; exact h1
        · rw [← hy]; exact h2
      · refine Or.inr (Or.inr ⟨?_, lt_trans hy h2⟩)
        rw [← hx]; exact h1
    · refine Or.inr (Or.inl ?_)
      rw [← h1]
      exact hx

instance : IsTrans ((List Nat × List Char) × WheelRecord) recBefore :=
  ⟨fun a b c hab hbc hac =>
    (keyLT_connect a.1 b.1 c.1 hac).elim hab hbc⟩

instance : IsTotal ((List Nat × List Char) × WheelRecord) recBefore :=
  ⟨fun a b => by
    by_cases h : keyLT a.1 b.1
    · exact Or.inr (keyLT_asymm _ _ h)
    · exact Or.inl h⟩

/-- **C8**.  The final wheel list is totally ordered descending by the
pair (parsed version, filename): no later element has a strictly greater
key than an earlier one. -/
theorem C8_descending_order (loader : List Char → Except PyErr RawDoc)
    (arts : List Artifact) (ws : List WheelRecord)
    (hres : reconcile loader arts = .ok (some ws)) :
    ws.Pairwise (fun x y => ∀ kx ky, wheelSortKey x = .ok kx →
      wheelSortKey y = .ok ky → ¬ keyLT kx ky) := by
  obtain ⟨cfgs, ws', kws, hdocs, hws, hkw, hval⟩ :=
    reconcile_ok_parts loader arts (some ws) hres
  by_cases hemp :
      ((List.insertionSort recBefore kws).map (fun kw => kw.2)).isEmpty
  · rw [if_pos hemp] at hval
    exact absurd hval (by simp)
  · rw [if_neg hemp] at hval
    injection hval with h'
    subst h'
    have hsorted : (List.insertionSort recBefore kws).Pairwise recBefore :=
      List.sorted_insertionSort recBefore kws
    rw [List.pairwise_map]
    have hmemk : ∀ kw ∈ List.insertionSort recBefore kws,
        wheelSortKey kw.2 = .ok kw.1 := by
      intro kw hkwmem
      exact keyedWheels_keys ws' kws hkw kw
        ((List.perm_insertionSort recBefore kws).mem_iff.mp hkwmem)
    refine List.Pairwise.imp_of_mem ?_ hsorted
    intro x y hx hy hr kx ky hkx hky
    rw [hmemk x hx] at hkx
    injection hkx with e₁
    rw [hmemk y hy] at hky
    injection hky with e₂
    subst e₁ e₂
    exact hr

/-- C8 witness variants map: one `zz` variant for version 1.5. -/
def vmC8 : VarMap := [("zz".data, [("cpu".data, [("x86".data, ["v3".data])])])]

/-- The loaded document of the C8 scenario. -/
def docC8 : RawDoc := ⟨some "s".data, some vmC8, true, true, true⟩

/-- C8 artifacts: wheels of versions 1.5, 2.0 and a labeled 1.5 wheel,
listed out of order, plus the 1.5 variant document. -/
def artsC8 : List Artifact :=
  [Artifact.wheel "pkg-1.5-py3-none-any.whl".data "W15".data [],
   Artifact.vjson "pkg-1.5-variants.json".data "J15".data [],
   Artifact.wheel "pkg-2.0-py3-none-any.whl".data "W20".data [],
   Artifact.wheel "pkg-1.5-py3-none-linux-zz.whl".data "W15Z".data []]

/-- Loader of the C8 scenario. -/
def loaderC8 : List Char → Except PyErr RawDoc := fun l =>
  if l = "J15".data then .ok docC8 else .error .otherTransport

/-- Witness for `C8_descending_order` on the concrete scenario: versions
2.0, 1.5 and 1.5-with-label-zz order as [2.0, 1.5-zz, 1.5] (version
descending, filename descending as tie-break), and the pairwise descending
property holds. -/
theorem C8_descending_order_witness :
    reconcile loaderC8 artsC8 = .ok (some
      [⟨"pkg-2.0-py3-none-any.whl".data, "W20".data, [], []⟩,
       ⟨"pkg-1.5-py3-none-linux-zz.whl".data, "W15Z".data, [],
         ["cpu :: x86 :: v3".data]⟩,
       ⟨"pkg-1.5-py3-none-any.whl".data, "W15".data, [], []⟩]) ∧
    ([⟨"pkg-2.0-py3-none-any.whl".data, "W20".data, [], []⟩,
      ⟨"pkg-1.5-py3-none-linux-zz.whl".data, "W15Z".data, [],
        ["cpu :: x86 :: v3".data]⟩,
      ⟨"pkg-1.5-py3-none-any.whl".data, "W15".data, [], []⟩] :
        List WheelRecord).Pairwise
      (fun x y => ∀ kx ky, wheelSortKey x = .ok kx →
        wheelSortKey y = .ok ky → ¬ keyLT kx ky) :=
  ⟨rfl, C8_descending_order loaderC8 artsC8 _ rfl⟩

/- ------------------------------------------------------------------ -/
/- `download_json` / `load_variant_json`                               -/
/- ------------------------------------------------------------------ -/

/-- `urlparse(url).path.rsplit("/", maxsplit=1)[-1]` (and `Path(...).name`):
strip any fragment and query, then take the part after the last slash. -/
def lastPathSegment (url : List Char) : List Char :=
  (splitOnC '/' ((splitOnC '?' ((splitOnC '#' url).headD [])).headD [])).getLastD []

/-- Python `in` on strings: `sub` occurs somewhere in the string. -/
def containsSub (sub : List Char) : List Char → Bool
  | [] => sub.isEmpty
  | c :: rest => sub.isPrefixOf (c :: rest) || containsSub sub rest

/-- The host substring tested by `download_json`. -/
def wheelnextDomain : List Char := "variants-schema.wheelnext.dev".data

/-- The bare legacy schema URL. -/
def bareSchemaURL : List Char := "https://variants-schema.wheelnext.dev/".data

/-- The v0.0.2 schema URL the bare URL is rewritten to. -/
def v022URL : List Char :=
  "https://variants-schema.wheelnext.dev/v0.0.2.json".data

/-- The v0.0.3 schema URL a migrated document declares. -/
def v033URL : List Char :=
  "https://variants-schema.wheelnext.dev/v0.0.3.json".data

/-- The remote-validation step of `download_json`
(`schema = download_json(url=data["$schema"]); jsonschema.validate(...)`):
the schema fetch is a plain fetch (a schema document's own `$schema` is not
on the wheelnext host, so its recursive dispatch is a no-op), and the
outcome of the `jsonschema` collaborator is the document's `remoteOk`
flag. -/
def remoteCheck (fetchDoc : List Char → Except PyErr RawDoc) (data : RawDoc) :
    Except PyErr RawDoc :=
  match data.schemaUrl with
  | none => .error .keyError
  | some sch =>
      match fetchDoc sch with
      | .error e => .error e
      | .ok _ => if data.remoteOk then .ok data else .error .validationError

/-- `download_json`: fetch and decode the document (failures propagate);
read `data["$schema"]` (`KeyError` when missing); when the schema is on the
wheelnext host, rewrite the bare URL to v0.0.2 and dispatch on the trailing
path segment — v0.0.2 validates (pydantic outcome `v2ok`) and migrates
(the dumped document declares the v0.0.3 schema; `variants` is carried
unchanged), v0.0.3 validates only (`v3ok`), and any other revision raises
the distinct `VariantVersionNotSupportedError` — then re-validate against
the remote schema.  A document whose schema is not on the wheelnext host is
returned as-is, unvalidated. -/
def download_json (fetchDoc : List Char → Except PyErr RawDoc)
    (url : List Char) : Except PyErr RawDoc :=
  match fetchDoc url with
  | .error e => .error e
  | .ok data =>
      match data.schemaUrl with
      | none => .error .keyError
      | some sch =>
          if containsSub wheelnextDomain sch then
            let sch' := if sch = bareSchemaURL then v022URL else sch
            if lastPathSegment sch' = "v0.0.2.json".data then
              if data.v2ok then
                remoteCheck fetchDoc { data with schemaUrl := some v033URL }
              else .error .validationError
            else if lastPathSegment sch' = "v0.0.3.json".data then
              if data.v3ok then
                remoteCheck fetchDoc { data with schemaUrl := some sch' }
              else .error .validationError
            else .error .unsupported
          else .ok data

/-- `load_variant_json`: read-through file cache keyed by the filename
portion of the URL — on a hit return the cached document as-is, on a miss
run `download_json` and persist the result only when it succeeded. -/
def load_variant_json (fetchDoc : List Char → Except PyErr RawDoc)
    (cache : List (List Char × RawDoc)) (url : List Char) :
    Except PyErr RawDoc × List (List Char × RawDoc) :=
  match cache.lookup (lastPathSegment url) with
  | some d => (.ok d, cache)
  | none =>
      match download_json fetchDoc url with
      | .error e => (.error e, cache)
      | .ok data => (.ok data, cache ++ [(lastPathSegment url, data)])

/- ------------------------------------------------------------------ -/
/- C9                                                                  -/
/- ------------------------------------------------------------------ -/

/-- A document declaring a foreign schema revision, carrying failing
validation flags. -/
def docC9x : RawDoc := ⟨some "https://example.org/v9.json".data, some [], false, false, false⟩

/-- Fetch oracle of the C9 counterexample. -/
def fetchC9x : List Char → Except PyErr RawDoc := fun u =>
  if u = "https://r/x-1.0-variants.json".data then .ok docC9x
  else .error .otherTransport

/-- **C9** (counterexample to the claim as stated).  A document declaring
`https://example.org/v9.json` — a schema revision that is neither the
earliest supported nor the current one — does *not* fail normalization:
the dispatch only fires for schemas on the wheelnext host, so the document
is returned as-is (never validated) and *is* written to the cache. -/
theorem C9_counterexample :
    download_json fetchC9x "https://r/x-1.0-variants.json".data = .ok docC9x ∧
    load_variant_json fetchC9x [] "https://r/x-1.0-variants.json".data =
      (.ok docC9x, [("x-1.0-variants.json".data, docC9x)]) :=
  ⟨rfl, rfl⟩

/-- **C9** (amended).  For every variant document whose declared schema is
on the wheelnext host and names a revision that is neither v0.0.2 nor
v0.0.3 (nor the bare legacy URL), normalization fails with the distinct
unsupported-schema-version error; the document is not written to the
cache; and the reconciler, seeing that error from the loader, skips the
document and continues (it does not abort the package).  Documents whose
schema is on another host bypass the dispatch entirely and are returned
unvalidated. -/
theorem C9_unsupported_schema_skipped
    (fetchDoc : List Char → Except PyErr RawDoc) (url : List Char)
    (cache : List (List Char × RawDoc)) (data : RawDoc) (sch : List Char)
    (hfetch : fetchDoc url = .ok data)
    (hsch : data.schemaUrl = some sch)
    (hdom : containsSub wheelnextDomain sch = true)
    (hbare : sch ≠ bareSchemaURL)
    (hseg2 : lastPathSegment sch ≠ "v0.0.2.json".data)
    (hseg3 : lastPathSegment sch ≠ "v0.0.3.json".data)
    (hmiss : cache.lookup (lastPathSegment url) = none) :
    download_json fetchDoc url = .error .unsupported ∧
    load_variant_json fetchDoc cache url = (.error .unsupported, cache) ∧
    (∀ (loader : List Char → Except PyErr RawDoc) (f : Artifact)
      (rest : List Artifact) (cfgs : Configs) (v : List Char),
      vjsonVersion f.name = .ok v → (cfgs.lookup v).isSome = false →
      loader f.link = .error .unsupported →
      processDocs loader (f :: rest) cfgs = processDocs loader rest cfgs) := by
  have hdl : download_json fetchDoc url = .error .unsupported := by
    rw [download_json, hfetch]
    dsimp only
    rw [hsch]
    dsimp only
    rw [if_pos hdom, if_neg hbare, if_neg hseg2, if_neg hseg3]
  refine ⟨hdl, ?_, ?_⟩
  · rw [load_variant_json, hmiss]
    dsimp only
    rw [hdl]
  · intro loader f rest cfgs v hv hlook hload
    simp only [processDocs, hv, hlook, Bool.false_eq_true, if_false, hload]

/-- A document declaring an unknown wheelnext schema revision. -/
def docC9 : RawDoc :=
  ⟨some "https://variants-schema.wheelnext.dev/v9.9.9.json".data, some [],
    true, true, true⟩

/-- Fetch oracle of the C9 witness. -/
def fetchC9 : List Char → Except PyErr RawDoc := fun u =>
  if u = "https://r/x-1.0-variants.json".data then .ok docC9
  else .error .otherTransport

/-- Witness for `C9_unsupported_schema_skipped`: the unknown revision
`v9.9.9` fails with the distinct unsupported error, caches nothing, and is
skipped by the reconciler. -/
theorem C9_unsupported_schema_skipped_witness :
    download_json fetchC9 "https://r/x-1.0-variants.json".data =
      .error .unsupported ∧
    load_variant_json fetchC9 [] "https://r/x-1.0-variants.json".data =
      (.error .unsupported, []) ∧
    (∀ (loader : List Char → Except PyErr RawDoc) (f : Artifact)
      (rest : List Artifact) (cfgs : Configs) (v : List Char),
      vjsonVersion f.name = .ok v → (cfgs.lookup v).isSome = false →
      loader f.link = .error .unsupported →
      processDocs loader (f :: rest) cfgs = processDocs loader rest cfgs) :=
  C9_unsupported_schema_skipped fetchC9 "https://r/x-1.0-variants.json".data
    [] docC9 "https://variants-schema.wheelnext.dev/v9.9.9.json".data
    rfl rfl (by decide) (by decide) (by decide) (by decide) rfl

/- ------------------------------------------------------------------ -/
/- The top-level run (`main.py`)                                       -/
/- ------------------------------------------------------------------ -/

/-- The ascending name order of `sorted(packages.values(),
key=lambda x: x.name)`. -/
def pkgBefore (a b : PkgConfig) : Prop :=
  ¬ b.name < a.name

instance : DecidableRel pkgBefore := fun _ _ => instDecidableNot

/-- The package loop of `main.py`: each package's pipeline runs in turn
with no exception handling around `generate_project_index`; the result is
the list of attempted package names and the first fatal error, if any. -/
def runPkgs (process : PkgConfig → Except PyErr Unit) :
    List PkgConfig → List (List Char) × Option PyErr
  | [] => ([], none)
  | p :: rest =>
      match process p with
      | .error e => ([p.name], some e)
      | .ok _ =>
          match runPkgs process rest with
          | (names, err) => (p.name :: names, err)

/-- The top-level run: the configured packages, sorted by name, each
processed by `generate_project_index`. -/
def mainLoop (process : PkgConfig → Except PyErr Unit)
    (pkgs : List PkgConfig) : List (List Char) × Option PyErr :=
  runPkgs process (List.insertionSort pkgBefore pkgs)

/- ------------------------------------------------------------------ -/
/- C10                                                                 -/
/- ------------------------------------------------------------------ -/

/-- C10 scenario: package `a` (first in sorted order) fails fatally. -/
def procC10 : PkgConfig → Except PyErr Unit := fun p =>
  if p.name = "a".data then .error .dupVersion else .ok ()

/-- Two configured packages, `b` listed first. -/
def pkgsC10 : List PkgConfig :=
  [⟨"b".data, "R".data⟩, ⟨"a".data, "R".data⟩]

/-- **C10** (counterexample to the claim as stated).  `main.py` has no
try/except around `generate_project_index`: when the first package (in
sorted order) fails fatally, the loop aborts — package `b` is never
processed, contrary to "the run logs the failure and continues processing
the remaining packages". -/
theorem C10_counterexample :
    mainLoop procC10 pkgsC10 = (["a".data], some .dupVersion) ∧
    "b".data ∉ (mainLoop procC10 pkgsC10).1 := by
  refine ⟨rfl, ?_⟩
  rw [show (mainLoop procC10 pkgsC10).1 = ["a".data] from rfl]
  decide

/-- What each branch of the loop does. -/
theorem runPkgs_spec (process : PkgConfig → Except PyErr Unit) :
    ∀ l : List PkgConfig,
      (∀ names, runPkgs process l = (names, none) →
        names = l.map PkgConfig.name ∧ ∀ q ∈ l, process q = .ok ()) ∧
      (∀ names e, runPkgs process l = (names, some e) →
        ∃ pre p post, l = pre ++ p :: post ∧
          names = pre.map PkgConfig.name ++ [p.name] ∧
          process p = .error e ∧ ∀ q ∈ pre, process q = .ok ()) := by
  intro l
  induction l with
  | nil =>
    constructor
    · intro names h
      rw [runPkgs] at h
      injection h with h₁ h₂
      exact ⟨h₁.symm, by simp⟩
    · intro names e h
      rw [runPkgs] at h
      injection h with h₁ h₂
      exact absurd h₂ (by simp)
  | cons p rest ih =>
    constructor
    · intro names h
      rw [runPkgs] at h
      cases hp : process p with
      | error e => rw [hp] at h; injection h with h₁ h₂; exact absurd h₂ (by simp)
      | ok u =>
        rw [hp] at h
        dsimp only at h
        cases hrec : runPkgs process rest with
        | mk names' err' =>
          rw [hrec] at h
          injection h with h₁ h₂
          subst h₂
          obtain ⟨hn, hall⟩ := (ih.1) names' hrec
          refine ⟨by rw [← h₁, hn]; rfl, ?_⟩
          intro q hq
          rcases List.mem_cons.mp hq with rfl | hq'
          · cases u; exact hp
          · exact hall q hq'
    · intro names e h
      rw [runPkgs] at h
      cases hp : process p with
      | error e' =>
        rw [hp] at h
        injection h with h₁ h₂
        injection h₂ with h₃
        subst h₃
        exact ⟨[], p, rest, rfl, by rw [← h₁]; rfl, hp, by simp⟩
      | ok u =>
        rw [hp] at h
        dsimp only at h
        cases hrec : runPkgs process rest with
        | mk names' err' =>
          rw [hrec] at h
          injection h with h₁ h₂
          subst h₂
          obtain ⟨pre, p', post, hsplit, hnames, hperr, hall⟩ :=
            (ih.2) names' e hrec
          refine ⟨p :: pre, p', post, by rw [hsplit]; rfl, ?_, hperr, ?_⟩
          · rw [← h₁, hnames]
            rfl
          · intro q hq
            rcases List.mem_cons.mp hq with rfl | hq'
            · cases u; exact hp
            · exact hall q hq'

/-- **C10** (amended).  A fatal error in one package's pipeline aborts the
whole remaining run: the loop attempts packages in name-sorted order up to
and including the first failing one, whose error propagates, and the
packages after it are never processed; only a run with no fatal error
processes every configured package. -/
theorem C10_fatal_aborts_run (process : PkgConfig → Except PyErr Unit)
    (pkgs : List PkgConfig) :
    (∀ names, mainLoop process pkgs = (names, none) →
      names = (List.insertionSort pkgBefore pkgs).map PkgConfig.name ∧
      ∀ q ∈ List.insertionSort pkgBefore pkgs, process q = .ok ()) ∧
    (∀ names e, mainLoop process pkgs = (names, some e) →
      ∃ pre p post, List.insertionSort pkgBefore pkgs = pre ++ p :: post ∧
        names = pre.map PkgConfig.name ++ [p.name] ∧
        process p = .error e ∧ ∀ q ∈ pre, process q = .ok ()) :=
  runPkgs_spec process (List.insertionSort pkgBefore pkgs)

/-- Witness for `C10_fatal_aborts_run` on the concrete two-package
scenario: the run stops at failing package `a` and package `b` (later in
sorted order) is unattempted. -/
theorem C10_fatal_aborts_run_witness :
    ∃ pre p post,
      List.insertionSort pkgBefore pkgsC10 = pre ++ p :: post ∧
      ["a".data] = pre.map PkgConfig.name ++ [p.name] ∧
      procC10 p = .error .dupVersion ∧ ∀ q ∈ pre, procC10 q = .ok () :=
  (C10_fatal_aborts_run procC10 pkgsC10).2 ["a".data] .dupVersion rfl
